import Mathlib

/-!
Shallow embedding of the 2048 grid engine from `2048.py` (class `Grid`),
together with proofs of the behavioural claims about it.

Modelling conventions:
* a `Square`'s `value` field is a `Cell := Option Nat` (`none` = empty);
* the grid's `squares` (a list of `width` lists, each of `height` cells,
  as built by `Grid._init_squares`) is a `List (List Cell)`;
* the in-place loop of `Grid._shift` becomes a fold of `shiftStep` over the
  indices of the line, threading an explicit `SState` record that carries
  the mutated line together with the loop variables (`first_empty_spot`,
  `last_filled_spot` as an index, `merged`, `finished`, `made_move`);
* `random.choice` over the list of empty squares becomes an extra `Nat`
  argument `k`; the chosen element is the one at index `k % length`;
* `raise GameOverException` / `raise GameFinishedException` become
  `Except.error` values of type `GameException`, returned next to the
  (already mutated) grid state;
* Python's `IndexError` in `Grid._get_columns` (out-of-range
  `columns[i]`) is modelled by `Option`: `none` means the exception.
-/

/-- Value of one grid square: `None` or a number. -/
abbrev Cell := Option Nat

/-- Exceptions raised by the game engine (`GameOverException`,
`GameFinishedException`). -/
inductive GameException where
  | gameOver
  | gameFinished
deriving DecidableEq, Repr

/-- Goal value, `Grid.GOAL = 2048`. -/
def GOAL : Nat := 2048

/-- State of the loop inside `Grid._shift`: the (mutated) list of squares,
`first_empty_spot`, the index of `last_filled_spot` (the Python reference
to a `Square` is modelled by its position, which never changes),
and the three flags. -/
structure SState where
  squares : List Cell
  firstEmpty : Option Nat
  lastFilled : Option Nat
  merged : Bool
  finished : Bool
  madeMove : Bool
deriving DecidableEq, Repr

/-- Branches of the `_shift` loop body reached when no merge happens: the
`elif first_empty_spot is not None` slide branch and the final `else`
branch that records `last_filled_spot = spot`. `v` is the current square's
value. -/
def slideOrMark (s : SState) (i : Nat) (v : Nat) : SState :=
  match s.firstEmpty with
  | some f =>
    { s with squares := (s.squares.set f (some v)).set i none
           , lastFilled := some f
           , firstEmpty := some (f + 1)
           , madeMove := true }
  | none => { s with lastFilled := some i }

/-- One iteration of the `for i, spot in enumerate(squares)` loop in
`Grid._shift`. -/
def shiftStep (s : SState) (i : Nat) : SState :=
  match s.squares.getD i none with
  | none =>
    if s.firstEmpty.isNone then { s with firstEmpty := some i } else s
  | some v =>
    match s.lastFilled with
    | some j =>
      if s.squares.getD j none = some v then
        if s.merged then s
        else
          { s with squares := (s.squares.set j (some (v + v))).set i none
                 , finished := if v + v = GOAL then true else s.finished
                 , merged := true
                 , madeMove := true
                 , firstEmpty := if s.firstEmpty.isNone then some i else s.firstEmpty }
      else slideOrMark s i v
    | none => slideOrMark s i v

/-- Starting state of the `_shift` loop on a line `l`. -/
def shiftInit (l : List Cell) : SState :=
  { squares := l, firstEmpty := none, lastFilled := none
  , merged := false, finished := false, madeMove := false }

/-- Full `Grid._shift` on one line: the final loop state (whose `squares`
is the shifted line, and whose `madeMove`/`finished` are the returned
pair). -/
def shift (l : List Cell) : SState :=
  (List.range l.length).foldl shiftStep (shiftInit l)

/-- Loop of `Grid._move` over the lines: shifted lines plus the
accumulated `made_move` and `finished` flags. -/
def shiftLines (lines : List (List Cell)) : List (List Cell) × Bool × Bool :=
  let rs := lines.map shift
  (rs.map (·.squares), rs.any (·.madeMove), rs.any (·.finished))

/-- The 2048 grid (`Grid.__init__` stores `_width`, `_height` and
`squares`). -/
structure Grid where
  width : Nat
  height : Nat
  squares : List (List Cell)
deriving DecidableEq, Repr

/-- Well-formedness produced by `Grid._init_squares`: `width` outer lists,
each holding `height` squares. -/
def Grid.shape (g : Grid) : Prop :=
  g.squares.length = g.width ∧ ∀ row ∈ g.squares, row.length = g.height

/-- Cell of a squares matrix at outer index `x`, inner index `y`. -/
def cellAt (sq : List (List Cell)) (x y : Nat) : Cell :=
  (sq.getD x []).getD y none

/-- Number of non-empty squares in one line. -/
def lineCount (l : List Cell) : Nat :=
  l.countP (fun c => c.isSome)

/-- Number of non-empty squares in the whole grid. -/
def gridCount (sq : List (List Cell)) : Nat :=
  (sq.map lineCount).sum

/-- Total number of squares in the grid. -/
def gridSize (sq : List (List Cell)) : Nat :=
  (sq.map List.length).sum

/-- Positions `(x, y)` of the empty squares, in the iteration order of
`Grid._get_empty_squares` (outer list first, then inner). -/
def emptyPositions (sq : List (List Cell)) : List (Nat × Nat) :=
  ((List.range sq.length).map (fun x =>
    (List.range ((sq.getD x []).length)).filterMap (fun y =>
      if (sq.getD x []).getD y none = none then some (x, y) else none))).flatten

/-- Write value `v` into the square at `(x, y)`. -/
def setCell (sq : List (List Cell)) (x y : Nat) (v : Cell) : List (List Cell) :=
  sq.set x ((sq.getD x []).set y v)

/-- `Grid._new_square`: pick an empty square (the `k % count`-th one,
modelling `random.choice`) and set its value to 2, or raise
`GameOverException` when none is left. -/
def newSquare (sq : List (List Cell)) (k : Nat) : Except GameException (List (List Cell)) :=
  let es := emptyPositions sq
  match es with
  | [] => .error .gameOver
  | _ :: _ =>
    let p := es.getD (k % es.length) (0, 0)
    .ok (setCell sq p.1 p.2 (some 2))

/-- Inner loop of `Grid._get_columns`: `for i, spot in enumerate(row):
columns[i].append(spot)`, starting at index `i`; `none` models the
`IndexError` raised when `i` is out of range of `columns`. -/
def distAux (cols : List (List Cell)) (i : Nat) : List Cell → Option (List (List Cell))
  | [] => some cols
  | c :: rest =>
    if i < cols.length then distAux (cols.set i ((cols.getD i []) ++ [c])) (i + 1) rest
    else none

/-- Outer loop of `Grid._get_columns` over the rows. -/
def getColsAux (cols : List (List Cell)) : List (List Cell) → Option (List (List Cell))
  | [] => some cols
  | row :: rest =>
    match distAux cols 0 row with
    | none => none
    | some cols' => getColsAux cols' rest

/-- `Grid._get_columns`: starts from `[[] for _ in self.squares]` (one
empty column per outer list) and distributes every row. -/
def getColumns (sq : List (List Cell)) : Option (List (List Cell)) :=
  getColsAux (sq.map (fun _ => [])) sq

/-- Closed form of a successful `Grid._get_columns` on a `w × h` grid:
column `i < h` collects the `i`-th cell of every outer list; columns with
`h ≤ i < w` stay empty. -/
def colsSpec (w h : Nat) (sq : List (List Cell)) : List (List Cell) :=
  (List.range w).map (fun i => if i < h then sq.map (fun r => r.getD i none) else [])

/-- The four directions (`left`, `right`, `top`, `bottom` methods). -/
inductive Dir where
  | left
  | right
  | top
  | bottom
deriving DecidableEq, Repr

/-- Lines handed to `Grid._move` for each direction: the rows themselves,
the reversed rows (`x[::-1]`), the columns, or the reversed columns;
`none` models the `IndexError` of `_get_columns`. -/
def linesOf (g : Grid) : Dir → Option (List (List Cell))
  | .left => some g.squares
  | .right => some (g.squares.map List.reverse)
  | .top => getColumns g.squares
  | .bottom => (getColumns g.squares).map (List.map List.reverse)

/-- Transpose the (shifted) columns back into grid rows. In Python the
lines of `top`/`bottom` share their `Square` objects with the grid, so
after the shifts the grid cell `(x, y)` holds the value at `cols[y][x]`;
this function realises that write-back in the pure model. -/
def fromColumns (w h : Nat) (cols : List (List Cell)) : List (List Cell) :=
  (List.range w).map (fun x => (List.range h).map (fun y => (cols.getD y []).getD x none))

/-- Grid contents after the shifted lines are reflected back through the
shared `Square` objects, for each direction. -/
def restoreGrid (g : Grid) (d : Dir) (lines' : List (List Cell)) : List (List Cell) :=
  match d with
  | .left => lines'
  | .right => lines'.map List.reverse
  | .top => fromColumns g.width g.height lines'
  | .bottom => fromColumns g.width g.height (lines'.map List.reverse)

/-- One directional move: `Grid.left`/`right`/`top`/`bottom` composed with
`Grid._move`. Returns the grid as mutated so far next to the normal
(`Except.ok`) or exceptional (`Except.error`) way `_move` ends; the outer
`Option` is `none` when `_get_columns` raises `IndexError`. `k` feeds the
random choice of `_new_square`. -/
def applyMove (g : Grid) (d : Dir) (k : Nat) : Option (Grid × Except GameException Unit) :=
  match linesOf g d with
  | none => none
  | some lines =>
    let r := shiftLines lines
    let sq' := restoreGrid g d r.1
    if r.2.2 then some ({ g with squares := sq' }, .error .gameFinished)
    else if r.2.1 then
      match newSquare sq' k with
      | .ok sq2 => some ({ g with squares := sq2 }, .ok ())
      | .error e => some ({ g with squares := sq' }, .error e)
    else some ({ g with squares := sq' }, .ok ())

/-- All-empty `w × h` squares built by `Grid._init_squares`. -/
def emptySquares (w h : Nat) : List (List Cell) :=
  (List.range w).map (fun _ => (List.range h).map (fun _ => (none : Cell)))

/-- `Grid.__init__`: build the empty squares, then spawn two squares
(`k1`, `k2` feed the two random choices). -/
def initGrid (w h k1 k2 : Nat) : Except GameException Grid :=
  match newSquare (emptySquares w h) k1 with
  | .error e => .error e
  | .ok sq1 =>
    match newSquare sq1 k2 with
    | .error e => .error e
    | .ok sq2 => .ok ⟨w, h, sq2⟩

example : (shift [some 2, some 2, some 2, some 2]).squares
    = [some 4, some 2, none, some 2] := by decide

example : (shift [some 1024, some 1024, none, none]).squares
    = [some 2048, none, none, none] ∧ (shift [some 1024, some 1024, none, none]).finished = true := by
  decide

example : getColumns [[none, none]] = none := by decide

example : getColumns [[some 1, some 2], [some 3, some 4]]
    = some [[some 1, some 3], [some 2, some 4]] := by decide

/-! ### Generic list helpers -/

lemma getD_oob {α : Type _} (l : List α) (i : Nat) (d : α) (h : l.length ≤ i) :
    l.getD i d = d := by
  rw [List.getD_eq_getElem?_getD, List.getElem?_eq_none h, Option.getD_none]

lemma lt_length_of_getD_some (l : List Cell) (i : Nat) (v : Nat)
    (h : l.getD i none = some v) : i < l.length := by
  by_contra hn
  rw [getD_oob l i none (Nat.le_of_not_lt hn)] at h
  exact Option.noConfusion h

lemma getD_set_self {α : Type _} (l : List α) (i : Nat) (v d : α) (h : i < l.length) :
    (l.set i v).getD i d = v := by
  rw [List.getD_eq_getElem?_getD, List.getElem?_set_self h, Option.getD_some]

lemma getD_set_ne {α : Type _} (l : List α) (i j : Nat) (v d : α) (h : i ≠ j) :
    (l.set i v).getD j d = l.getD j d := by
  rw [List.getD_eq_getElem?_getD, List.getElem?_set_ne h, ← List.getD_eq_getElem?_getD]

lemma getD_mem {α : Type _} (l : List α) (i : Nat) (d : α) (h : i < l.length) :
    l.getD i d ∈ l := by
  rw [List.getD_eq_getElem?_getD, List.getElem?_eq_getElem h]
  exact List.getElem_mem h

lemma countP_set_add (p : Cell → Bool) :
    ∀ (l : List Cell) (i : Nat) (v : Cell), i < l.length →
      (l.set i v).countP p + (if p (l.getD i none) then 1 else 0)
        = l.countP p + (if p v then 1 else 0)
  | [], i, v, h => by simp at h
  | c :: t, 0, v, _ => by
    simp [List.countP_cons, List.getD]
    omega
  | c :: t, i + 1, v, h => by
    have ih := countP_set_add p t i v (by simpa using Nat.lt_of_succ_lt_succ h)
    simp only [List.set, List.countP_cons, List.getD_cons_succ]
    omega

lemma lineCount_le (l : List Cell) : lineCount l ≤ l.length :=
  List.countP_le_length _

lemma lineCount_lt_of_empty (l : List Cell) (i : Nat) (h : i < l.length)
    (he : l.getD i none = none) : lineCount l < l.length := by
  rcases Nat.lt_or_ge (lineCount l) l.length with hlt | hge
  · exact hlt
  · exfalso
    have heq : lineCount l = l.length := Nat.le_antisymm (lineCount_le l) hge
    have := (List.countP_eq_length.mp heq) _ (getD_mem l i none h)
    rw [he] at this
    simp at this

/-! ### Invariants of the `_shift` loop -/

lemma foldl_inv {P : SState → Prop} (h : ∀ s i, P s → P (shiftStep s i)) :
    ∀ (idx : List Nat) (s : SState), P s → P (idx.foldl shiftStep s)
  | [], s, hs => hs
  | i :: rest, s, hs => foldl_inv h rest (shiftStep s i) (h s i hs)

lemma shiftStep_length (s : SState) (i : Nat) :
    (shiftStep s i).squares.length = s.squares.length := by
  unfold shiftStep slideOrMark
  repeat' split
  all_goals simp [List.length_set]

lemma shiftStep_madeMove_mono (s : SState) (i : Nat) (h : s.madeMove = true) :
    (shiftStep s i).madeMove = true := by
  unfold shiftStep slideOrMark
  repeat' split
  all_goals simp_all

lemma shift_length (l : List Cell) : (shift l).squares.length = l.length := by
  have h : ∀ (idx : List Nat) (s : SState), s.squares.length = l.length →
      (idx.foldl shiftStep s).squares.length = l.length :=
    foldl_inv (P := fun s => s.squares.length = l.length)
      (fun s i hs => by show (shiftStep s i).squares.length = l.length
                        rw [shiftStep_length]; exact hs)
  exact h _ _ rfl

lemma shift_no_move (l : List Cell) (h : (shift l).madeMove = false) :
    (shift l).squares = l ∧ (shift l).finished = false := by
  have key : ∀ (idx : List Nat) (s : SState),
      (s.madeMove = false → s.squares = l ∧ s.finished = false) →
      ((idx.foldl shiftStep s).madeMove = false →
        (idx.foldl shiftStep s).squares = l ∧ (idx.foldl shiftStep s).finished = false) := by
    refine foldl_inv (P := fun s => s.madeMove = false → s.squares = l ∧ s.finished = false)
      (fun s i hs hstep => ?_)
    by_cases hm : s.madeMove = true
    · rw [shiftStep_madeMove_mono s i hm] at hstep
      exact absurd hstep (by simp)
    · have hs' := hs (by simpa using hm)
      revert hstep
      unfold shiftStep slideOrMark
      repeat' split
      all_goals simp_all
  exact key _ _ (fun _ => ⟨rfl, rfl⟩) h

/-! Characterisations of the `_shift` loop body, one per branch. -/

lemma slideOrMark_none (s : SState) (i v : Nat) (hfe : s.firstEmpty = none) :
    slideOrMark s i v = { s with lastFilled := some i } := by
  unfold slideOrMark; rw [hfe]

lemma slideOrMark_some (s : SState) (i v f : Nat) (hfe : s.firstEmpty = some f) :
    slideOrMark s i v
      = { s with squares := (s.squares.set f (some v)).set i none
               , lastFilled := some f
               , firstEmpty := some (f + 1)
               , madeMove := true } := by
  unfold slideOrMark; rw [hfe]

lemma shiftStep_empty (s : SState) (i : Nat) (hgi : s.squares.getD i none = none) :
    shiftStep s i = if s.firstEmpty.isNone then { s with firstEmpty := some i } else s := by
  unfold shiftStep; rw [hgi]

lemma shiftStep_noLast (s : SState) (i v : Nat) (hgi : s.squares.getD i none = some v)
    (hlf : s.lastFilled = none) : shiftStep s i = slideOrMark s i v := by
  unfold shiftStep; rw [hgi, hlf]

lemma shiftStep_skip (s : SState) (i v j : Nat) (hgi : s.squares.getD i none = some v)
    (hlf : s.lastFilled = some j) (hgj : s.squares.getD j none = some v)
    (hm : s.merged = true) : shiftStep s i = s := by
  unfold shiftStep
  rw [hgi, hlf]
  show (if s.squares.getD j none = some v then if s.merged = true then s else _
        else slideOrMark s i v) = s
  rw [if_pos hgj, if_pos hm]

lemma shiftStep_merge (s : SState) (i v j : Nat) (hgi : s.squares.getD i none = some v)
    (hlf : s.lastFilled = some j) (hgj : s.squares.getD j none = some v)
    (hm : s.merged = false) :
    shiftStep s i
      = { s with squares := (s.squares.set j (some (v + v))).set i none
               , finished := if v + v = GOAL then true else s.finished
               , merged := true
               , madeMove := true
               , firstEmpty := if s.firstEmpty.isNone then some i else s.firstEmpty } := by
  unfold shiftStep
  rw [hgi, hlf]
  show (if s.squares.getD j none = some v then if s.merged = true then s else _
        else slideOrMark s i v) = _
  rw [if_pos hgj, if_neg (by rw [hm]; exact Bool.false_ne_true)]

lemma shiftStep_noMerge (s : SState) (i v j : Nat) (hgi : s.squares.getD i none = some v)
    (hlf : s.lastFilled = some j) (hgj : ¬ s.squares.getD j none = some v) :
    shiftStep s i = slideOrMark s i v := by
  unfold shiftStep
  rw [hgi, hlf]
  show (if s.squares.getD j none = some v then if s.merged = true then s else _
        else slideOrMark s i v) = _
  rw [if_neg hgj]

lemma lineCount_set (l : List Cell) (i : Nat) (v : Cell) (h : i < l.length) :
    lineCount (l.set i v) + (if (l.getD i none).isSome then 1 else 0)
      = lineCount l + (if v.isSome then 1 else 0) := by
  simpa [lineCount] using countP_set_add (fun c => c.isSome) l i v h

lemma slideOrMark_inv (s : SState) (i : Nat) (v : Nat)
    (hgi : s.squares.getD i none = some v) :
    (slideOrMark s i v).squares.length = s.squares.length ∧
    lineCount (slideOrMark s i v).squares ≤ lineCount s.squares ∧
    ((slideOrMark s i v).madeMove = true → s.madeMove = true ∨
      lineCount (slideOrMark s i v).squares < (slideOrMark s i v).squares.length) := by
  have hi : i < s.squares.length := lt_length_of_getD_some _ _ _ hgi
  cases hfe : s.firstEmpty with
  | none =>
    rw [slideOrMark_none s i v hfe]
    exact ⟨rfl, le_refl _, fun h => Or.inl h⟩
  | some f =>
    rw [slideOrMark_some s i v f hfe]
    have hlen1 : (s.squares.set f (some v)).length = s.squares.length :=
      List.length_set ..
    have hi1 : i < (s.squares.set f (some v)).length := by rw [hlen1]; exact hi
    have hgi1 : ((s.squares.set f (some v)).getD i none).isSome = true := by
      by_cases hfi : f = i
      · subst hfi; rw [getD_set_self _ _ _ _ hi]; rfl
      · rw [getD_set_ne _ _ _ _ _ hfi, hgi]; rfl
    have h2 := lineCount_set (s.squares.set f (some v)) i none hi1
    rw [hgi1] at h2
    simp only [Option.isSome_none, Bool.false_eq_true, if_true, if_false] at h2
    have h1 : lineCount (s.squares.set f (some v)) ≤ lineCount s.squares + 1 := by
      by_cases hf : f < s.squares.length
      · have h0 := lineCount_set s.squares f (some v) hf
        simp only [Option.isSome_some, if_true] at h0
        omega
      · rw [List.set_eq_of_length_le (Nat.le_of_not_lt hf)]
        exact Nat.le_succ _
    have hempty : ((s.squares.set f (some v)).set i none).getD i none = none :=
      getD_set_self _ _ _ _ hi1
    have hlt : lineCount ((s.squares.set f (some v)).set i none)
        < ((s.squares.set f (some v)).set i none).length := by
      refine lineCount_lt_of_empty _ i ?_ hempty
      rw [List.length_set, hlen1]; exact hi
    refine ⟨?_, ?_, fun _ => Or.inr hlt⟩
    · show ((s.squares.set f (some v)).set i none).length = s.squares.length
      simp [List.length_set]
    · show lineCount ((s.squares.set f (some v)).set i none) ≤ lineCount s.squares
      omega

lemma merge_squares_inv (l : List Cell) (i j : Nat) (v : Nat)
    (hgi : l.getD i none = some v) (hgj : l.getD j none = some v) :
    ((l.set j (some (v + v))).set i none).length = l.length ∧
    lineCount ((l.set j (some (v + v))).set i none) + 1 = lineCount l ∧
    lineCount ((l.set j (some (v + v))).set i none)
      < ((l.set j (some (v + v))).set i none).length := by
  have hi : i < l.length := lt_length_of_getD_some _ _ _ hgi
  have hj : j < l.length := lt_length_of_getD_some _ _ _ hgj
  have hlen1 : (l.set j (some (v + v))).length = l.length := List.length_set ..
  have hi1 : i < (l.set j (some (v + v))).length := by rw [hlen1]; exact hi
  have h0 := lineCount_set l j (some (v + v)) hj
  rw [hgj] at h0
  simp only [Option.isSome_some, if_true] at h0
  have hgi1 : ((l.set j (some (v + v))).getD i none).isSome = true := by
    by_cases hji : j = i
    · subst hji; rw [getD_set_self _ _ _ _ hj]; rfl
    · rw [getD_set_ne _ _ _ _ _ hji, hgi]; rfl
  have h2 := lineCount_set (l.set j (some (v + v))) i none hi1
  rw [hgi1] at h2
  simp only [Option.isSome_none, Bool.false_eq_true, if_true, if_false] at h2
  have hempty : ((l.set j (some (v + v))).set i none).getD i none = none :=
    getD_set_self _ _ _ _ hi1
  have hlt : lineCount ((l.set j (some (v + v))).set i none)
      < ((l.set j (some (v + v))).set i none).length := by
    refine lineCount_lt_of_empty _ i ?_ hempty
    rw [List.length_set, hlen1]; exact hi
  exact ⟨by simp [List.length_set], by omega, hlt⟩

lemma shiftStep_inv (s : SState) (i : Nat) :
    lineCount (shiftStep s i).squares ≤ lineCount s.squares ∧
    ((shiftStep s i).madeMove = true → s.madeMove = true ∨
      lineCount (shiftStep s i).squares < (shiftStep s i).squares.length) := by
  cases hgi : s.squares.getD i none with
  | none =>
    rw [shiftStep_empty s i hgi]
    by_cases hfe : s.firstEmpty.isNone
    · rw [if_pos hfe]; exact ⟨le_refl _, fun h => Or.inl h⟩
    · rw [if_neg hfe]; exact ⟨le_refl _, fun h => Or.inl h⟩
  | some v =>
    cases hlf : s.lastFilled with
    | none =>
      rw [shiftStep_noLast s i v hgi hlf]
      have h := slideOrMark_inv s i v hgi
      exact ⟨h.2.1, h.2.2⟩
    | some j =>
      by_cases hgj : s.squares.getD j none = some v
      · by_cases hm : s.merged = true
        · rw [shiftStep_skip s i v j hgi hlf hgj hm]
          exact ⟨le_refl _, fun h => Or.inl h⟩
        · rw [shiftStep_merge s i v j hgi hlf hgj (Bool.eq_false_iff.mpr hm)]
          have h := merge_squares_inv s.squares i j v hgi hgj
          refine ⟨?_, fun _ => Or.inr h.2.2⟩
          show lineCount ((s.squares.set j (some (v + v))).set i none) ≤ lineCount s.squares
          omega
      · rw [shiftStep_noMerge s i v j hgi hlf hgj]
        have h := slideOrMark_inv s i v hgi
        exact ⟨h.2.1, h.2.2⟩

lemma shift_count_le (l : List Cell) :
    lineCount (shift l).squares ≤ lineCount l := by
  have h : ∀ (idx : List Nat) (s : SState), lineCount s.squares ≤ lineCount l →
      lineCount (idx.foldl shiftStep s).squares ≤ lineCount l :=
    foldl_inv (P := fun s => lineCount s.squares ≤ lineCount l)
      (fun s i hs => le_trans (shiftStep_inv s i).1 hs)
  exact h _ _ (le_refl _)

lemma shift_move_count_lt (l : List Cell) (h : (shift l).madeMove = true) :
    lineCount (shift l).squares < l.length := by
  have key : ∀ (idx : List Nat) (s : SState),
      (s.squares.length = l.length ∧
        (s.madeMove = true → lineCount s.squares < l.length)) →
      ((idx.foldl shiftStep s).squares.length = l.length ∧
        ((idx.foldl shiftStep s).madeMove = true →
          lineCount (idx.foldl shiftStep s).squares < l.length)) := by
    refine foldl_inv
      (P := fun s => s.squares.length = l.length ∧
        (s.madeMove = true → lineCount s.squares < l.length)) (fun s i hs => ?_)
    refine ⟨by rw [shiftStep_length]; exact hs.1, fun hmm => ?_⟩
    rcases (shiftStep_inv s i).2 hmm with hold | hnew
    · exact lt_of_le_of_lt (shiftStep_inv s i).1 (hs.2 hold)
    · rw [shiftStep_length s i, hs.1] at hnew
      exact hnew
  exact (key _ _ ⟨rfl, by simp [shiftInit]⟩).2 h

/-! ### Values appearing in a shifted line -/

/-- Every value present in the line satisfies `P`. -/
def ValsOk (P : Nat → Prop) (l : List Cell) : Prop :=
  ∀ v : Nat, some v ∈ l → P v

lemma valsOk_set_none (P : Nat → Prop) (l : List Cell) (i : Nat)
    (h : ValsOk P l) : ValsOk P (l.set i none) := by
  intro v hv
  rcases List.mem_or_eq_of_mem_set hv with hmem | habs
  · exact h v hmem
  · exact Option.noConfusion habs

lemma valsOk_set_some (P : Nat → Prop) (l : List Cell) (i : Nat) (w : Nat)
    (h : ValsOk P l) (hw : P w) : ValsOk P (l.set i (some w)) := by
  intro v hv
  rcases List.mem_or_eq_of_mem_set hv with hmem | heq
  · exact h v hmem
  · cases Option.some.injEq .. ▸ heq with
    | refl => exact hw

lemma valsOk_of_getD (P : Nat → Prop) (l : List Cell) (i v : Nat)
    (h : ValsOk P l) (hgi : l.getD i none = some v) : P v := by
  have hi : i < l.length := lt_length_of_getD_some _ _ _ hgi
  exact h v (hgi ▸ getD_mem l i none hi)

lemma shiftStep_vals (P : Nat → Prop) (hP2 : ∀ v, P v → P (v + v))
    (s : SState) (i : Nat) (h : ValsOk P s.squares) :
    ValsOk P (shiftStep s i).squares := by
  cases hgi : s.squares.getD i none with
  | none =>
    rw [shiftStep_empty s i hgi]
    by_cases hfe : s.firstEmpty.isNone
    · rw [if_pos hfe]; exact h
    · rw [if_neg hfe]; exact h
  | some v =>
    have hslide : ValsOk P (slideOrMark s i v).squares := by
      cases hfe : s.firstEmpty with
      | none => rw [slideOrMark_none s i v hfe]; exact h
      | some f =>
        rw [slideOrMark_some s i v f hfe]
        exact valsOk_set_none P _ i
          (valsOk_set_some P _ f v h (valsOk_of_getD P _ i v h hgi))
    cases hlf : s.lastFilled with
    | none => rw [shiftStep_noLast s i v hgi hlf]; exact hslide
    | some j =>
      by_cases hgj : s.squares.getD j none = some v
      · by_cases hm : s.merged = true
        · rw [shiftStep_skip s i v j hgi hlf hgj hm]; exact h
        · rw [shiftStep_merge s i v j hgi hlf hgj (Bool.eq_false_iff.mpr hm)]
          exact valsOk_set_none P _ i
            (valsOk_set_some P _ j (v + v) h (hP2 v (valsOk_of_getD P _ j v h hgj)))
      · rw [shiftStep_noMerge s i v j hgi hlf hgj]; exact hslide

lemma shift_vals (P : Nat → Prop) (hP2 : ∀ v, P v → P (v + v))
    (l : List Cell) (h : ValsOk P l) : ValsOk P (shift l).squares := by
  have key : ∀ (idx : List Nat) (s : SState), ValsOk P s.squares →
      ValsOk P (idx.foldl shiftStep s).squares :=
    foldl_inv (P := fun s => ValsOk P s.squares) (shiftStep_vals P hP2)
  exact key _ _ h

/-! ### The `_move` loop over the lines -/

lemma shiftLines_fst (lines : List (List Cell)) :
    (shiftLines lines).1 = lines.map (fun l => (shift l).squares) := by
  simp [shiftLines, List.map_map, Function.comp]

lemma shiftLines_madeMove (lines : List (List Cell)) :
    (shiftLines lines).2.1 = lines.any (fun l => (shift l).madeMove) := by
  show (List.map shift lines).any (fun x => x.madeMove) = _
  induction lines with
  | nil => rfl
  | cons a t ih => simp [List.any_cons, ih]

lemma shiftLines_finished (lines : List (List Cell)) :
    (shiftLines lines).2.2 = lines.any (fun l => (shift l).finished) := by
  show (List.map shift lines).any (fun x => x.finished) = _
  induction lines with
  | nil => rfl
  | cons a t ih => simp [List.any_cons, ih]

lemma shiftLines_no_move (lines : List (List Cell))
    (h : (shiftLines lines).2.1 = false) :
    (shiftLines lines).1 = lines ∧ (shiftLines lines).2.2 = false := by
  rw [shiftLines_madeMove] at h
  have hall : ∀ l ∈ lines, (shift l).madeMove = false := by
    intro l hl
    by_contra hc
    have : lines.any (fun l => (shift l).madeMove) = true :=
      List.any_eq_true.mpr ⟨l, hl, by simpa using hc⟩
    rw [this] at h
    exact Bool.noConfusion h
  constructor
  · rw [shiftLines_fst]
    have : ∀ l ∈ lines, (fun l => (shift l).squares) l = id l := by
      intro l hl
      exact (shift_no_move l (hall l hl)).1
    rw [List.map_congr_left this, List.map_id]
  · rw [shiftLines_finished]
    rw [List.any_eq_false]
    intro l hl
    rw [(shift_no_move l (hall l hl)).2]
    exact Bool.false_ne_true

/-! ### Characterisation of `_get_columns` -/

lemma getD_map_range {α : Type _} (f : Nat → α) (d : α) (w x : Nat) (hx : x < w) :
    (((List.range w).map f).getD x d) = f x := by
  rw [List.getD_eq_getElem?_getD, List.getElem?_map, List.getElem?_range hx]
  rfl

lemma list_eq_of_getD {α : Type _} (d : α) (l1 l2 : List α) (hlen : l1.length = l2.length)
    (h : ∀ j, l1.getD j d = l2.getD j d) : l1 = l2 := by
  apply List.ext_getElem hlen
  intro n h1 h2
  have hn := h n
  rw [List.getD_eq_getElem?_getD, List.getD_eq_getElem?_getD,
    List.getElem?_eq_getElem h1, List.getElem?_eq_getElem h2] at hn
  simpa using hn

lemma distAux_fail : ∀ (row : List Cell) (cols : List (List Cell)) (i : Nat),
    row ≠ [] → cols.length < i + row.length → distAux cols i row = none
  | [], _, _, hne, _ => absurd rfl hne
  | c :: rest, cols, i, _, hlen => by
    unfold distAux
    by_cases hi : i < cols.length
    · rw [if_pos hi]
      cases rest with
      | nil => simp at hlen; omega
      | cons c2 r2 =>
        apply distAux_fail (c2 :: r2) _ (i + 1) (List.cons_ne_nil c2 r2)
        rw [List.length_set]
        simp at hlen ⊢
        omega
    · rw [if_neg hi]

lemma distAux_ok : ∀ (row : List Cell) (cols : List (List Cell)) (i : Nat),
    i + row.length ≤ cols.length →
    ∃ cols', distAux cols i row = some cols' ∧ cols'.length = cols.length ∧
      ∀ j, cols'.getD j [] = cols.getD j [] ++
        (if i ≤ j ∧ j < i + row.length then [row.getD (j - i) none] else [])
  | [], cols, i, _ => ⟨cols, rfl, rfl, fun j => by simp⟩
  | c :: rest, cols, i, hlen => by
    have hi : i < cols.length := by simp at hlen; omega
    obtain ⟨cols', hd, hlen', hpt⟩ :=
      distAux_ok rest (cols.set i ((cols.getD i []) ++ [c])) (i + 1)
        (by rw [List.length_set]; simp at hlen ⊢; omega)
    refine ⟨cols', ?_, by rw [hlen', List.length_set], fun j => ?_⟩
    · unfold distAux
      rw [if_pos hi]
      exact hd
    · rw [hpt j]
      by_cases hj : j = i
      · subst hj
        rw [getD_set_self _ _ _ _ hi]
        rw [if_neg (by omega), if_pos (by refine ⟨Nat.le_refl _, ?_⟩; simp)]
        simp
      · rw [getD_set_ne _ _ _ _ _ (fun he => hj (he.symm))]
        by_cases h1 : i + 1 ≤ j ∧ j < i + 1 + rest.length
        · rw [if_pos h1, if_pos (by simp; omega)]
          have hsub : j - i = (j - (i + 1)) + 1 := by omega
          rw [hsub]
          rfl
        · rw [if_neg h1, if_neg (by simp; omega)]

lemma getColsAux_ok : ∀ (sq cols : List (List Cell)) (h : Nat),
    (∀ row ∈ sq, row.length = h) → h ≤ cols.length →
    ∃ cols', getColsAux cols sq = some cols' ∧ cols'.length = cols.length ∧
      ∀ j, cols'.getD j [] = cols.getD j [] ++
        (if j < h then sq.map (fun r => r.getD j none) else [])
  | [], cols, h, _, _ => ⟨cols, rfl, rfl, fun j => by simp⟩
  | row :: rest, cols, h, hlens, hh => by
    have hrow : row.length = h := hlens row (List.mem_cons_self row rest)
    obtain ⟨cols1, hd1, hlen1, hpt1⟩ := distAux_ok row cols 0 (by rw [hrow]; simpa using hh)
    obtain ⟨cols', hd2, hlen2, hpt2⟩ :=
      getColsAux_ok rest cols1 h (fun r hr => hlens r (List.mem_cons_of_mem row hr))
        (by rw [hlen1]; exact hh)
    refine ⟨cols', ?_, by rw [hlen2, hlen1], fun j => ?_⟩
    · unfold getColsAux
      rw [hd1]
      exact hd2
    · rw [hpt2 j, hpt1 j]
      by_cases hj : j < h
      · rw [if_pos hj, if_pos (by constructor <;> omega), if_pos hj]
        simp
      · rw [if_neg hj, if_neg (by simp; omega), if_neg hj]
        simp

lemma base_cols_getD (sq : List (List Cell)) (j : Nat) :
    (sq.map (fun _ => ([] : List Cell))).getD j [] = [] := by
  rw [List.getD_eq_getElem?_getD, List.getElem?_map]
  cases sq[j]? <;> rfl

lemma getColumns_ok (w h : Nat) (sq : List (List Cell)) (hw : sq.length = w)
    (hh : ∀ row ∈ sq, row.length = h) (hhw : h ≤ w) :
    getColumns sq = some (colsSpec w h sq) := by
  obtain ⟨cols', hd, hlen', hpt⟩ :=
    getColsAux_ok sq (sq.map (fun _ => [])) h hh (by rw [List.length_map, hw]; exact hhw)
  unfold getColumns
  rw [hd]
  congr 1
  refine list_eq_of_getD [] cols' (colsSpec w h sq) ?_ fun j => ?_
  · rw [hlen', List.length_map, hw]
    simp [colsSpec]
  · rw [hpt j, base_cols_getD]
    by_cases hjw : j < w
    · rw [colsSpec, getD_map_range _ _ _ _ hjw]
      simp
    · have hjh : ¬ j < h := by omega
      rw [if_neg hjh]
      rw [colsSpec, List.getD_eq_getElem?_getD, List.getElem?_eq_none]
      · rfl
      · simpa using Nat.le_of_not_lt hjw

lemma getColumns_fail (w h : Nat) (sq : List (List Cell)) (hw : sq.length = w)
    (hh : ∀ row ∈ sq, row.length = h) (h1w : 1 ≤ w) (hwh : w < h) :
    getColumns sq = none := by
  cases sq with
  | nil => simp at hw; omega
  | cons row rest =>
    have hrow : row.length = h := hh row (List.mem_cons_self row rest)
    have hfail : distAux ((row :: rest).map (fun _ => ([] : List Cell))) 0 row = none := by
      apply distAux_fail
      · exact List.ne_nil_of_length_pos (by omega)
      · rw [List.length_map]
        omega
    unfold getColumns getColsAux
    rw [hfail]

lemma getColumns_some_char (w h : Nat) (sq : List (List Cell)) (hw : sq.length = w)
    (hh : ∀ row ∈ sq, row.length = h) (lines : List (List Cell))
    (hsome : getColumns sq = some lines) :
    lines = colsSpec w h sq ∧ (w = 0 ∨ h ≤ w) := by
  rcases Nat.eq_zero_or_pos w with hw0 | hw1
  · subst hw0
    have hnil : sq = [] := List.length_eq_zero.mp hw
    subst hnil
    refine ⟨?_, Or.inl rfl⟩
    have : getColumns [] = some [] := rfl
    rw [this] at hsome
    have hl : lines = [] := (Option.some.injEq .. ▸ hsome).symm
    rw [hl]
    rfl
  · by_cases hhw : h ≤ w
    · rw [getColumns_ok w h sq hw hh hhw] at hsome
      exact ⟨(Option.some.injEq .. ▸ hsome).symm, Or.inr hhw⟩
    · rw [getColumns_fail w h sq hw hh hw1 (by omega)] at hsome
      exact Option.noConfusion hsome

/-! ### Counting and write-back through `fromColumns` -/

lemma sum_map_range (f : Nat → Nat) : ∀ n : Nat,
    ((List.range n).map f).sum = ∑ i ∈ Finset.range n, f i
  | 0 => rfl
  | n + 1 => by
    rw [List.range_succ, List.map_append, List.sum_append, Finset.sum_range_succ,
      sum_map_range f n]
    simp

lemma countP_eq_sum (p : Cell → Bool) : ∀ l : List Cell,
    l.countP p = (l.map (fun c => if p c then 1 else 0)).sum
  | [] => rfl
  | c :: t => by
    rw [List.countP_cons, List.map_cons, List.sum_cons, countP_eq_sum p t]
    omega

lemma sum_map_eq_sum_range {α : Type _} (d : α) (g : α → Nat) : ∀ l : List α,
    (l.map g).sum = ∑ i ∈ Finset.range l.length, g (l.getD i d)
  | [] => by simp
  | a :: t => by
    rw [List.map_cons, List.sum_cons, sum_map_eq_sum_range d g t]
    rw [List.length_cons, Finset.sum_range_succ']
    simp [List.getD_cons_succ, List.getD_cons_zero]
    omega

lemma lineCount_eq_sum (l : List Cell) :
    lineCount l = ∑ i ∈ Finset.range l.length,
      (if (l.getD i none).isSome = true then 1 else 0) := by
  rw [lineCount, countP_eq_sum, sum_map_eq_sum_range none]

lemma getD_map {α β : Type _} (f : α → β) (l : List α) (j : Nat) (d : β) (d' : α)
    (h : j < l.length) : (l.map f).getD j d = f (l.getD j d') := by
  rw [List.getD_eq_getElem?_getD, List.getElem?_map, List.getElem?_eq_getElem h,
    List.getD_eq_getElem?_getD, List.getElem?_eq_getElem h]
  rfl

lemma range_map_getD {α : Type _} (d : α) (l : List α) :
    (List.range l.length).map (fun i => l.getD i d) = l := by
  apply List.ext_getElem (by simp)
  intro n h1 h2
  rw [List.getElem_map, List.getElem_range]
  rw [List.getD_eq_getElem?_getD, List.getElem?_eq_getElem h2]
  rfl

lemma fromColumns_length (w h : Nat) (cols : List (List Cell)) :
    (fromColumns w h cols).length = w := by
  simp [fromColumns]

lemma fromColumns_row (w h : Nat) (cols : List (List Cell)) (x : Nat) (hx : x < w) :
    (fromColumns w h cols).getD x []
      = (List.range h).map (fun y => (cols.getD y []).getD x none) := by
  rw [fromColumns, getD_map_range _ _ _ _ hx]

lemma gridCount_fromColumns (w h : Nat) (cols : List (List Cell))
    (hlen : ∀ y, y < h → (cols.getD y []).length = w) :
    gridCount (fromColumns w h cols) = ∑ y ∈ Finset.range h, lineCount (cols.getD y []) := by
  rw [gridCount, fromColumns, List.map_map, sum_map_range]
  have hrow : ∀ x, (lineCount ∘ fun x => (List.range h).map
      (fun y => (cols.getD y []).getD x none)) x
      = ∑ y ∈ Finset.range h, (if ((cols.getD y []).getD x none).isSome = true then 1 else 0) := by
    intro x
    show lineCount ((List.range h).map fun y => (cols.getD y []).getD x none) = _
    rw [lineCount, countP_eq_sum, List.map_map, sum_map_range]
    exact Finset.sum_congr rfl (fun i _ => rfl)
  rw [Finset.sum_congr rfl (fun x _ => hrow x), Finset.sum_comm]
  refine Finset.sum_congr rfl (fun y hy => ?_)
  rw [lineCount_eq_sum, hlen y (Finset.mem_range.mp hy)]

lemma fromColumns_colsSpec (w h : Nat) (sq : List (List Cell)) (hw : sq.length = w)
    (hh : ∀ row ∈ sq, row.length = h) (hhw : h ≤ w) :
    fromColumns w h (colsSpec w h sq) = sq := by
  refine list_eq_of_getD [] _ _ (by rw [fromColumns_length, hw]) (fun j => ?_)
  by_cases hj : j < w
  · rw [fromColumns_row w h _ j hj]
    have hjlen : j < sq.length := by rw [hw]; exact hj
    have hcell : ∀ y, y < h →
        ((colsSpec w h sq).getD y []).getD j none = (sq.getD j []).getD y none := by
      intro y hy
      rw [colsSpec, getD_map_range _ _ _ _ (lt_of_lt_of_le hy hhw), if_pos hy,
        getD_map _ _ _ _ [] hjlen]
    rw [List.map_congr_left (fun y hy => hcell y (List.mem_range.mp hy))]
    have hrowlen : (sq.getD j []).length = h := hh _ (getD_mem sq j [] hjlen)
    rw [← hrowlen, range_map_getD]
  · rw [getD_oob _ _ _ (by rw [fromColumns_length]; omega),
      getD_oob _ _ _ (by rw [hw]; omega)]

lemma gridCount_colsSpec (w h : Nat) (sq : List (List Cell)) (hw : sq.length = w)
    (hh : ∀ row ∈ sq, row.length = h) (hhw : h ≤ w) :
    ∑ y ∈ Finset.range h, lineCount ((colsSpec w h sq).getD y []) = gridCount sq := by
  have hlen : ∀ y, y < h → ((colsSpec w h sq).getD y []).length = w := by
    intro y hy
    rw [colsSpec, getD_map_range _ _ _ _ (lt_of_lt_of_le hy hhw), if_pos hy,
      List.length_map, hw]
  rw [← gridCount_fromColumns w h _ hlen, fromColumns_colsSpec w h sq hw hh hhw]

/-! ### Empty squares and `_new_square` -/

lemma mem_emptyPositions (sq : List (List Cell)) (x y : Nat) :
    (x, y) ∈ emptyPositions sq ↔
      x < sq.length ∧ y < (sq.getD x []).length ∧ (sq.getD x []).getD y none = none := by
  unfold emptyPositions
  rw [List.mem_flatten]
  constructor
  · rintro ⟨l, hl, hmem⟩
    rw [List.mem_map] at hl
    obtain ⟨x', hx', rfl⟩ := hl
    rw [List.mem_filterMap] at hmem
    obtain ⟨y', hy', heq⟩ := hmem
    by_cases hc : (sq.getD x' []).getD y' none = none
    · rw [if_pos hc] at heq
      simp only [Option.some.injEq, Prod.mk.injEq] at heq
      obtain ⟨rfl, rfl⟩ := heq
      exact ⟨List.mem_range.mp hx', List.mem_range.mp hy', hc⟩
    · rw [if_neg hc] at heq
      exact Option.noConfusion heq
  · rintro ⟨hx, hy, hc⟩
    refine ⟨_, List.mem_map.mpr ⟨x, List.mem_range.mpr hx, rfl⟩,
      List.mem_filterMap.mpr ⟨y, List.mem_range.mpr hy, ?_⟩⟩
    rw [if_pos hc]

lemma exists_empty_of_count_lt (l : List Cell) (h : lineCount l < l.length) :
    ∃ y, y < l.length ∧ l.getD y none = none := by
  by_contra hc
  push_neg at hc
  have hall : ∀ y ∈ Finset.range l.length,
      (if (l.getD y none).isSome = true then 1 else 0) = 1 := by
    intro y hy
    have hne := hc y (Finset.mem_range.mp hy)
    rw [if_pos]
    cases hgd : l.getD y none with
    | none => exact absurd hgd hne
    | some v => rfl
  rw [lineCount_eq_sum, Finset.sum_congr rfl hall, Finset.sum_const, smul_eq_mul,
    mul_one, Finset.card_range] at h
  exact lt_irrefl _ h

lemma gridCount_eq_sum (sq : List (List Cell)) :
    gridCount sq = ∑ x ∈ Finset.range sq.length, lineCount (sq.getD x []) := by
  rw [gridCount, sum_map_eq_sum_range []]

lemma gridSize_eq_sum (sq : List (List Cell)) :
    gridSize sq = ∑ x ∈ Finset.range sq.length, (sq.getD x []).length := by
  rw [gridSize, sum_map_eq_sum_range []]

lemma exists_row_deficit (sq : List (List Cell)) (h : gridCount sq < gridSize sq) :
    ∃ x, x < sq.length ∧ lineCount (sq.getD x []) < (sq.getD x []).length := by
  by_contra hc
  push_neg at hc
  have hall : ∀ x ∈ Finset.range sq.length,
      lineCount (sq.getD x []) = (sq.getD x []).length := by
    intro x hx
    exact Nat.le_antisymm (lineCount_le _) (hc x (Finset.mem_range.mp hx))
  rw [gridCount_eq_sum, gridSize_eq_sum, Finset.sum_congr rfl hall] at h
  exact lt_irrefl _ h

lemma emptyPositions_ne_nil (sq : List (List Cell)) (h : gridCount sq < gridSize sq) :
    emptyPositions sq ≠ [] := by
  obtain ⟨x, hx, hrow⟩ := exists_row_deficit sq h
  obtain ⟨y, hy, hempty⟩ := exists_empty_of_count_lt _ hrow
  intro hnil
  have := (mem_emptyPositions sq x y).mpr ⟨hx, hy, hempty⟩
  rw [hnil] at this
  exact absurd this (List.not_mem_nil _)

lemma newSquare_gameOver (sq : List (List Cell)) (k : Nat)
    (hes : emptyPositions sq = []) : newSquare sq k = .error .gameOver := by
  unfold newSquare
  rw [hes]

lemma newSquare_spec (sq : List (List Cell)) (k : Nat)
    (hne : emptyPositions sq ≠ []) :
    ∃ x y, (x, y) ∈ emptyPositions sq ∧
      newSquare sq k = .ok (setCell sq x y (some 2)) := by
  cases hes : emptyPositions sq with
  | nil => exact absurd hes hne
  | cons p ps =>
    have hlt : k % (p :: ps).length < (p :: ps).length :=
      Nat.mod_lt _ (by simp)
    have hq : (p :: ps).getD (k % (p :: ps).length) (0, 0) ∈ p :: ps :=
      getD_mem _ _ _ hlt
    refine ⟨((p :: ps).getD (k % (p :: ps).length) (0, 0)).1,
      ((p :: ps).getD (k % (p :: ps).length) (0, 0)).2, ?_, ?_⟩
    · exact hq
    · unfold newSquare
      rw [hes]

lemma gridCount_set (sq : List (List Cell)) :
    ∀ (x : Nat) (r : List Cell), x < sq.length →
      gridCount (sq.set x r) + lineCount (sq.getD x []) = gridCount sq + lineCount r := by
  induction sq with
  | nil => intro x r hx; simp at hx
  | cons a t ih =>
    intro x r hx
    cases x with
    | zero =>
      show gridCount (r :: t) + lineCount a = gridCount (a :: t) + lineCount r
      unfold gridCount
      simp [List.map_cons, List.sum_cons]
      omega
    | succ x' =>
      have hx' : x' < t.length := by simpa using hx
      have := ih x' r hx'
      show gridCount (a :: t.set x' r) + lineCount ((a :: t).getD (x' + 1) []) = _
      unfold gridCount at this ⊢
      simp only [List.map_cons, List.sum_cons, List.getD_cons_succ] at this ⊢
      omega

lemma setCell_gridCount (sq : List (List Cell)) (x y : Nat)
    (hx : x < sq.length) (hy : y < (sq.getD x []).length)
    (he : (sq.getD x []).getD y none = none) :
    gridCount (setCell sq x y (some 2)) = gridCount sq + 1 := by
  have hset := gridCount_set sq x ((sq.getD x []).set y (some 2)) hx
  have hrow := lineCount_set (sq.getD x []) y (some 2) hy
  rw [he] at hrow
  simp only [Option.isSome_none, Option.isSome_some, Bool.false_eq_true,
    if_true, if_false] at hrow
  unfold setCell
  omega

lemma setCell_length (sq : List (List Cell)) (x y : Nat) (v : Cell) :
    (setCell sq x y v).length = sq.length := by
  simp [setCell, List.length_set]

lemma setCell_rows (sq : List (List Cell)) (x y : Nat) (v : Cell) :
    ∀ row ∈ setCell sq x y v, row ∈ sq ∨ row = (sq.getD x []).set y v := by
  intro row hrow
  exact List.mem_or_eq_of_mem_set hrow

lemma setCell_shape (sq : List (List Cell)) (x y : Nat) (v : Cell) (h : Nat)
    (hx : x < sq.length) (hh : ∀ row ∈ sq, row.length = h) :
    ∀ row ∈ setCell sq x y v, row.length = h := by
  intro row hrow
  rcases setCell_rows sq x y v row hrow with hmem | heq
  · exact hh row hmem
  · rw [heq, List.length_set]
    exact hh _ (getD_mem sq x [] hx)

lemma cellAt_setCell (sq : List (List Cell)) (x y a b : Nat) (v : Cell)
    (hne : cellAt (setCell sq x y v) a b ≠ cellAt sq a b) :
    cellAt (setCell sq x y v) a b = v ∧ a = x ∧ b = y := by
  unfold cellAt setCell at *
  by_cases hax : a = x
  · subst hax
    by_cases hxl : a < sq.length
    · rw [getD_set_self _ _ _ _ hxl] at hne ⊢
      by_cases hby : b = y
      · subst hby
        by_cases hyl : b < (sq.getD a []).length
        · rw [getD_set_self _ _ _ _ hyl]
          exact ⟨rfl, rfl, rfl⟩
        · rw [List.set_eq_of_length_le (Nat.le_of_not_lt hyl)] at hne
          exact absurd rfl hne
      · rw [getD_set_ne _ _ _ _ _ (fun he => hby (he.symm))] at hne
        exact absurd rfl hne
    · rw [List.set_eq_of_length_le (Nat.le_of_not_lt hxl)] at hne
      exact absurd rfl hne
  · rw [getD_set_ne _ _ _ _ _ (fun he => hax (he.symm))] at hne
    exact absurd rfl hne

/-! ### Direction-level assembly -/

lemma sum_le_sum_of_le (f g : List Cell → Nat) :
    ∀ L : List (List Cell), (∀ l ∈ L, f l ≤ g l) →
      (L.map f).sum ≤ (L.map g).sum
  | [], _ => le_refl _
  | a :: t, hle => by
    rw [List.map_cons, List.map_cons, List.sum_cons, List.sum_cons]
    have ha := hle a (List.mem_cons_self a t)
    have ht := sum_le_sum_of_le f g t (fun x hx => hle x (List.mem_cons_of_mem a hx))
    omega

lemma sum_lt_sum_of_exists (f g : List Cell → Nat) :
    ∀ L : List (List Cell), (∀ l ∈ L, f l ≤ g l) → (∃ l ∈ L, f l < g l) →
      (L.map f).sum < (L.map g).sum
  | [], _, hlt => by
    obtain ⟨l, hl, _⟩ := hlt
    exact absurd hl (List.not_mem_nil l)
  | a :: t, hle, hlt => by
    rw [List.map_cons, List.map_cons, List.sum_cons, List.sum_cons]
    obtain ⟨l, hl, hflt⟩ := hlt
    have ha := hle a (List.mem_cons_self a t)
    rcases List.mem_cons.mp hl with heq | hmem
    · have ht := sum_le_sum_of_le f g t (fun x hx => hle x (List.mem_cons_of_mem a hx))
      rw [heq] at hflt
      omega
    · have ht := sum_lt_sum_of_exists f g t
        (fun x hx => hle x (List.mem_cons_of_mem a hx)) ⟨l, hmem, hflt⟩
      omega

lemma gridCount_map_reverse (M : List (List Cell)) :
    gridCount (M.map List.reverse) = gridCount M := by
  unfold gridCount
  rw [List.map_map]
  refine congrArg List.sum (List.map_congr_left fun l _ => ?_)
  show lineCount l.reverse = lineCount l
  exact List.countP_reverse _ _

lemma gridSize_map_reverse (M : List (List Cell)) :
    gridSize (M.map List.reverse) = gridSize M := by
  unfold gridSize
  rw [List.map_map]
  refine congrArg List.sum (List.map_congr_left fun l _ => ?_)
  simp

lemma shift_nil_madeMove : (shift []).madeMove = false := rfl

lemma lines_deficit (lines : List (List Cell)) (hm : (shiftLines lines).2.1 = true) :
    gridCount (shiftLines lines).1 < gridSize (shiftLines lines).1 := by
  rw [shiftLines_madeMove] at hm
  obtain ⟨l, hl, hmove⟩ := List.any_eq_true.mp hm
  rw [shiftLines_fst]
  unfold gridCount gridSize
  rw [List.map_map, List.map_map]
  refine sum_lt_sum_of_exists _ _ lines (fun x _ => ?_) ⟨l, hl, ?_⟩
  · show lineCount (shift x).squares ≤ (shift x).squares.length
    exact lineCount_le _
  · show lineCount (shift l).squares < (shift l).squares.length
    rw [shift_length]
    exact shift_move_count_lt l hmove

lemma colsSpec_getD (w h : Nat) (sq : List (List Cell)) (y : Nat)
    (hyh : y < h) (hyw : y < w) :
    (colsSpec w h sq).getD y [] = sq.map (fun r => r.getD y none) := by
  rw [colsSpec, getD_map_range _ _ _ _ hyw, if_pos hyh]

lemma mem_colsSpec (w h : Nat) (sq : List (List Cell)) (l : List Cell)
    (hl : l ∈ colsSpec w h sq) :
    l = [] ∨ ∃ y, y < h ∧ y < w ∧ l = sq.map (fun r => r.getD y none) := by
  rw [colsSpec, List.mem_map] at hl
  obtain ⟨y, hy, heq⟩ := hl
  by_cases hyh : y < h
  · exact Or.inr ⟨y, hyh, List.mem_range.mp hy, by rw [← heq, if_pos hyh]⟩
  · left
    rw [← heq, if_neg hyh]

lemma gridSize_fromColumns (w h : Nat) (cols : List (List Cell)) :
    gridSize (fromColumns w h cols) = w * h := by
  unfold gridSize fromColumns
  rw [List.map_map]
  have : ∀ x ∈ List.range w,
      (List.length ∘ fun x => (List.range h).map fun y => (cols.getD y []).getD x none) x
        = (fun _ => h) x := by
    intro x _
    simp
  rw [List.map_congr_left this, sum_map_range]
  rw [Finset.sum_const, Finset.card_range, smul_eq_mul]

lemma fromColumns_deficit (w h : Nat) (cols : List (List Cell))
    (hlen : ∀ y, y < h → (cols.getD y []).length = w)
    (hy : ∃ y, y < h ∧ lineCount (cols.getD y []) < w) :
    gridCount (fromColumns w h cols) < gridSize (fromColumns w h cols) := by
  rw [gridCount_fromColumns w h cols hlen, gridSize_fromColumns]
  obtain ⟨y0, hy0, hlt⟩ := hy
  have hsum : ∑ y ∈ Finset.range h, lineCount (cols.getD y [])
      < ∑ _y ∈ Finset.range h, w := by
    refine Finset.sum_lt_sum (fun i hi => ?_) ⟨y0, Finset.mem_range.mpr hy0, hlt⟩
    rw [← hlen i (Finset.mem_range.mp hi)]
    exact lineCount_le _
  rw [Finset.sum_const, Finset.card_range, smul_eq_mul] at hsum
  rw [Nat.mul_comm w h]
  omega

lemma shiftLines_length (lines : List (List Cell)) :
    (shiftLines lines).1.length = lines.length := by
  rw [shiftLines_fst, List.length_map]

lemma shiftLines_getD (lines : List (List Cell)) (y : Nat) (hy : y < lines.length) :
    (shiftLines lines).1.getD y [] = (shift (lines.getD y [])).squares := by
  rw [shiftLines_fst, getD_map _ _ _ _ [] hy]

lemma map_reverse_reverse (M : List (List Cell)) :
    (M.map List.reverse).map List.reverse = M := by
  rw [List.map_map]
  have h : ∀ l ∈ M, (List.reverse ∘ List.reverse) l = id l :=
    fun l _ => List.reverse_reverse l
  rw [List.map_congr_left h, List.map_id]

lemma restore_decompose (g : Grid) (d : Dir) (lines : List (List Cell))
    (hs : Grid.shape g) (hl : linesOf g d = some lines) :
    restoreGrid g d lines = g.squares := by
  obtain ⟨hw, hh⟩ := hs
  cases d with
  | left =>
    have h1 : g.squares = lines := Option.some.inj hl
    show lines = g.squares
    exact h1.symm
  | right =>
    have h1 : g.squares.map List.reverse = lines := Option.some.inj hl
    show lines.map List.reverse = g.squares
    rw [← h1, map_reverse_reverse]
  | top =>
    obtain ⟨hlines, hcase⟩ :=
      getColumns_some_char g.width g.height g.squares hw hh lines hl
    show fromColumns g.width g.height lines = g.squares
    rcases hcase with hw0 | hhw
    · have hnil : g.squares = [] := List.length_eq_zero.mp (by rw [hw, hw0])
      rw [hw0, hnil]
      rfl
    · rw [hlines]
      exact fromColumns_colsSpec _ _ _ hw hh hhw
  | bottom =>
    obtain ⟨cols, hcols, hmap⟩ := Option.map_eq_some'.mp hl
    obtain ⟨hcolsSpec, hcase⟩ :=
      getColumns_some_char g.width g.height g.squares hw hh cols hcols
    show fromColumns g.width g.height (lines.map List.reverse) = g.squares
    rw [← hmap, map_reverse_reverse]
    rcases hcase with hw0 | hhw
    · have hnil : g.squares = [] := List.length_eq_zero.mp (by rw [hw, hw0])
      rw [hw0, hnil]
      rfl
    · rw [hcolsSpec]
      exact fromColumns_colsSpec _ _ _ hw hh hhw

lemma restored_deficit (g : Grid) (d : Dir) (lines : List (List Cell))
    (hs : Grid.shape g) (hl : linesOf g d = some lines)
    (hm : (shiftLines lines).2.1 = true) :
    gridCount (restoreGrid g d (shiftLines lines).1)
      < gridSize (restoreGrid g d (shiftLines lines).1) := by
  obtain ⟨hw, hh⟩ := hs
  have hmoved : ∃ l ∈ lines, (shift l).madeMove = true := by
    rw [shiftLines_madeMove] at hm
    exact List.any_eq_true.mp hm
  cases d with
  | left =>
    show gridCount (shiftLines lines).1 < gridSize (shiftLines lines).1
    exact lines_deficit lines hm
  | right =>
    show gridCount ((shiftLines lines).1.map List.reverse)
      < gridSize ((shiftLines lines).1.map List.reverse)
    rw [gridCount_map_reverse, gridSize_map_reverse]
    exact lines_deficit lines hm
  | top =>
    obtain ⟨hlines, hcase⟩ :=
      getColumns_some_char g.width g.height g.squares hw hh lines hl
    rcases hcase with hw0 | hhw
    · have hnil : lines = [] := by
        rw [hlines, hw0]
        rfl
      rw [hnil] at hm
      exact Bool.noConfusion hm
    · show gridCount (fromColumns g.width g.height (shiftLines lines).1)
        < gridSize (fromColumns g.width g.height (shiftLines lines).1)
      have hlineslen : lines.length = g.width := by
        rw [hlines, colsSpec, List.length_map, List.length_range]
      apply fromColumns_deficit
      · intro y hy
        have hyw : y < g.width := lt_of_lt_of_le hy hhw
        rw [shiftLines_getD lines y (by rw [hlineslen]; exact hyw), shift_length]
        rw [hlines, colsSpec_getD _ _ _ y hy hyw, List.length_map, hw]
      · obtain ⟨l, hlmem, hlmove⟩ := hmoved
        rw [hlines] at hlmem
        rcases mem_colsSpec _ _ _ _ hlmem with hleq | ⟨y, hyh, hyw, hleq⟩
        · rw [hleq] at hlmove
          exact Bool.noConfusion hlmove
        · refine ⟨y, hyh, ?_⟩
          rw [shiftLines_getD lines y (by rw [hlineslen]; exact hyw)]
          have hgety : lines.getD y [] = l := by
            rw [hlines, colsSpec_getD _ _ _ y hyh hyw, hleq]
          rw [hgety]
          have hcount := shift_move_count_lt l hlmove
          have hllen : l.length = g.width := by
            rw [hleq, List.length_map, hw]
          rw [hllen] at hcount
          exact hcount
  | bottom =>
    obtain ⟨cols, hcols, hmap⟩ := Option.map_eq_some'.mp hl
    obtain ⟨hcolsSpec, hcase⟩ :=
      getColumns_some_char g.width g.height g.squares hw hh cols hcols
    rcases hcase with hw0 | hhw
    · have hnil : lines = [] := by
        rw [← hmap, hcolsSpec, hw0]
        rfl
      rw [hnil] at hm
      exact Bool.noConfusion hm
    · show gridCount (fromColumns g.width g.height ((shiftLines lines).1.map List.reverse))
        < gridSize (fromColumns g.width g.height ((shiftLines lines).1.map List.reverse))
      have hlineseq : lines = (colsSpec g.width g.height g.squares).map List.reverse := by
        rw [← hmap, hcolsSpec]
      have hlineslen : lines.length = g.width := by
        rw [hlineseq, List.length_map, colsSpec, List.length_map, List.length_range]
      apply fromColumns_deficit
      · intro y hy
        have hyw : y < g.width := lt_of_lt_of_le hy hhw
        have hy1 : y < (shiftLines lines).1.length := by
          rw [shiftLines_length, hlineslen]; exact hyw
        rw [getD_map _ _ _ _ [] hy1, List.length_reverse]
        rw [shiftLines_getD lines y (by rw [hlineslen]; exact hyw), shift_length]
        rw [hlineseq, getD_map _ _ _ _ [] (by rw [colsSpec, List.length_map, List.length_range]; exact hyw)]
        rw [List.length_reverse, colsSpec_getD _ _ _ y hy hyw, List.length_map, hw]
      · obtain ⟨l, hlmem, hlmove⟩ := hmoved
        rw [hlineseq] at hlmem
        rw [List.mem_map] at hlmem
        obtain ⟨c, hcmem, hceq⟩ := hlmem
        rcases mem_colsSpec _ _ _ _ hcmem with hceq0 | ⟨y, hyh, hyw, hcol⟩
        · rw [hceq0] at hceq
          rw [← hceq] at hlmove
          exact Bool.noConfusion hlmove
        · refine ⟨y, hyh, ?_⟩
          have hy1 : y < (shiftLines lines).1.length := by
            rw [shiftLines_length, hlineslen]; exact hyw
          rw [getD_map _ _ _ _ [] hy1]
          show lineCount ((shiftLines lines).1.getD y []).reverse < g.width
          rw [shiftLines_getD lines y (by rw [hlineslen]; exact hyw)]
          have hgety : lines.getD y [] = l := by
            rw [hlineseq, getD_map _ _ _ _ []
              (by rw [colsSpec, List.length_map, List.length_range]; exact hyw)]
            rw [colsSpec_getD _ _ _ y hyh hyw, ← hcol]
            exact hceq
          rw [hgety]
          show List.countP (fun c => c.isSome) ((shift l).squares).reverse < g.width
          rw [List.countP_reverse]
          have hlt := shift_move_count_lt l hlmove
          have hlen : l.length = g.width := by
            rw [← hceq, List.length_reverse, hcol, List.length_map, hw]
          rw [hlen] at hlt
          exact hlt

/-! ### Branches of `applyMove` -/

lemma applyMove_noLines (g : Grid) (d : Dir) (k : Nat) (h : linesOf g d = none) :
    applyMove g d k = none := by
  unfold applyMove
  rw [h]

lemma applyMove_fin (g : Grid) (d : Dir) (k : Nat) (lines : List (List Cell))
    (hl : linesOf g d = some lines) (hfin : (shiftLines lines).2.2 = true) :
    applyMove g d k
      = some ({ g with squares := restoreGrid g d (shiftLines lines).1 },
              .error .gameFinished) := by
  unfold applyMove
  rw [hl]
  show (if (shiftLines lines).2.2 = true then _ else _) = _
  rw [if_pos hfin]

lemma applyMove_spawn (g : Grid) (d : Dir) (k : Nat) (lines : List (List Cell))
    (sq2 : List (List Cell)) (hl : linesOf g d = some lines)
    (hfin : (shiftLines lines).2.2 = false) (hmm : (shiftLines lines).2.1 = true)
    (hns : newSquare (restoreGrid g d (shiftLines lines).1) k = .ok sq2) :
    applyMove g d k = some ({ g with squares := sq2 }, .ok ()) := by
  unfold applyMove
  rw [hl]
  show (if (shiftLines lines).2.2 = true then _ else _) = _
  rw [if_neg (by rw [hfin]; exact Bool.false_ne_true)]
  show (if (shiftLines lines).2.1 = true then _ else _) = _
  rw [if_pos hmm]
  show (match newSquare (restoreGrid g d (shiftLines lines).1) k with
        | .ok sq2 => some ({ g with squares := sq2 }, Except.ok ())
        | .error e => some ({ g with squares := restoreGrid g d (shiftLines lines).1 },
            Except.error e)) = _
  rw [hns]

lemma applyMove_spawn_err (g : Grid) (d : Dir) (k : Nat) (lines : List (List Cell))
    (e : GameException) (hl : linesOf g d = some lines)
    (hfin : (shiftLines lines).2.2 = false) (hmm : (shiftLines lines).2.1 = true)
    (hns : newSquare (restoreGrid g d (shiftLines lines).1) k = .error e) :
    applyMove g d k
      = some ({ g with squares := restoreGrid g d (shiftLines lines).1 }, .error e) := by
  unfold applyMove
  rw [hl]
  show (if (shiftLines lines).2.2 = true then _ else _) = _
  rw [if_neg (by rw [hfin]; exact Bool.false_ne_true)]
  show (if (shiftLines lines).2.1 = true then _ else _) = _
  rw [if_pos hmm]
  show (match newSquare (restoreGrid g d (shiftLines lines).1) k with
        | .ok sq2 => some ({ g with squares := sq2 }, Except.ok ())
        | .error e => some ({ g with squares := restoreGrid g d (shiftLines lines).1 },
            Except.error e)) = _
  rw [hns]

lemma applyMove_still (g : Grid) (d : Dir) (k : Nat) (lines : List (List Cell))
    (hl : linesOf g d = some lines)
    (hfin : (shiftLines lines).2.2 = false) (hmm : (shiftLines lines).2.1 = false) :
    applyMove g d k
      = some ({ g with squares := restoreGrid g d (shiftLines lines).1 }, .ok ()) := by
  unfold applyMove
  rw [hl]
  show (if (shiftLines lines).2.2 = true then _ else _) = _
  rw [if_neg (by rw [hfin]; exact Bool.false_ne_true)]
  show (if (shiftLines lines).2.1 = true then _ else _) = _
  rw [if_neg (by rw [hmm]; exact Bool.false_ne_true)]

/-! ### Values across a whole move -/

/-- Every value present anywhere in the grid satisfies `P`. -/
def ValsOkG (P : Nat → Prop) (sq : List (List Cell)) : Prop :=
  ∀ row ∈ sq, ValsOk P row

lemma valsOk_reverse (P : Nat → Prop) (l : List Cell) (h : ValsOk P l) :
    ValsOk P l.reverse := by
  intro v hv
  exact h v (List.mem_reverse.mp hv)

lemma valsOkG_map_reverse (P : Nat → Prop) (M : List (List Cell))
    (h : ValsOkG P M) : ValsOkG P (M.map List.reverse) := by
  intro row hrow
  rw [List.mem_map] at hrow
  obtain ⟨r, hr, rfl⟩ := hrow
  exact valsOk_reverse P r (h r hr)

lemma valsOk_map_getD (P : Nat → Prop) (sq : List (List Cell)) (y : Nat)
    (h : ValsOkG P sq) : ValsOk P (sq.map (fun r => r.getD y none)) := by
  intro v hv
  rw [List.mem_map] at hv
  obtain ⟨r, hr, heq⟩ := hv
  exact valsOk_of_getD P r y v (h r hr) heq

lemma valsOkG_colsSpec (P : Nat → Prop) (w h : Nat) (sq : List (List Cell))
    (hv : ValsOkG P sq) : ValsOkG P (colsSpec w h sq) := by
  intro row hrow
  rcases mem_colsSpec w h sq row hrow with rfl | ⟨y, _, _, rfl⟩
  · intro v hv2
    exact absurd hv2 (List.not_mem_nil _)
  · exact valsOk_map_getD P sq y hv

lemma valsOkG_fromColumns (P : Nat → Prop) (w h : Nat) (cols : List (List Cell))
    (hv : ValsOkG P cols) : ValsOkG P (fromColumns w h cols) := by
  intro row hrow
  rw [fromColumns, List.mem_map] at hrow
  obtain ⟨x, _, rfl⟩ := hrow
  intro v hv2
  rw [List.mem_map] at hv2
  obtain ⟨y, _, heq⟩ := hv2
  have hx : x < (cols.getD y []).length := lt_length_of_getD_some _ _ _ heq
  by_cases hyc : y < cols.length
  · exact valsOk_of_getD P _ x v (hv _ (getD_mem cols y [] hyc)) heq
  · rw [getD_oob cols y [] (Nat.le_of_not_lt hyc)] at hx
    simp at hx

lemma valsOkG_linesOf (P : Nat → Prop) (g : Grid) (d : Dir)
    (lines : List (List Cell)) (hs : Grid.shape g) (hl : linesOf g d = some lines)
    (hv : ValsOkG P g.squares) : ValsOkG P lines := by
  obtain ⟨hw, hh⟩ := hs
  cases d with
  | left =>
    rw [← Option.some.inj hl]
    exact hv
  | right =>
    rw [← Option.some.inj hl]
    exact valsOkG_map_reverse P _ hv
  | top =>
    obtain ⟨hlines, _⟩ := getColumns_some_char g.width g.height g.squares hw hh lines hl
    rw [hlines]
    exact valsOkG_colsSpec P _ _ _ hv
  | bottom =>
    obtain ⟨cols, hcols, hmap⟩ := Option.map_eq_some'.mp hl
    obtain ⟨hcolsSpec, _⟩ := getColumns_some_char g.width g.height g.squares hw hh cols hcols
    rw [← hmap, hcolsSpec]
    exact valsOkG_map_reverse P _ (valsOkG_colsSpec P _ _ _ hv)

lemma valsOkG_shiftLines (P : Nat → Prop) (hP2 : ∀ v, P v → P (v + v))
    (lines : List (List Cell)) (hv : ValsOkG P lines) :
    ValsOkG P (shiftLines lines).1 := by
  rw [shiftLines_fst]
  intro row hrow
  rw [List.mem_map] at hrow
  obtain ⟨l, hl, rfl⟩ := hrow
  exact shift_vals P hP2 l (hv l hl)

lemma valsOkG_restore (P : Nat → Prop) (g : Grid) (d : Dir)
    (M : List (List Cell)) (hv : ValsOkG P M) : ValsOkG P (restoreGrid g d M) := by
  cases d with
  | left => exact hv
  | right => exact valsOkG_map_reverse P M hv
  | top => exact valsOkG_fromColumns P _ _ M hv
  | bottom => exact valsOkG_fromColumns P _ _ _ (valsOkG_map_reverse P M hv)

lemma valsOkG_setCell (P : Nat → Prop) (sq : List (List Cell)) (x y : Nat)
    (hv : ValsOkG P sq) (h2 : P 2) : ValsOkG P (setCell sq x y (some 2)) := by
  intro row hrow
  rcases setCell_rows sq x y (some 2) row hrow with hmem | heq
  · exact hv row hmem
  · rw [heq]
    refine valsOk_set_some P _ y 2 ?_ h2
    by_cases hx : x < sq.length
    · exact hv _ (getD_mem sq x [] hx)
    · rw [getD_oob sq x [] (Nat.le_of_not_lt hx)]
      intro v hv2
      exact absurd hv2 (List.not_mem_nil _)

lemma valsOkG_newSquare (P : Nat → Prop) (sq sq2 : List (List Cell)) (k : Nat)
    (hv : ValsOkG P sq) (h2 : P 2) (hns : newSquare sq k = .ok sq2) :
    ValsOkG P sq2 := by
  by_cases hne : emptyPositions sq = []
  · rw [newSquare_gameOver sq k hne] at hns
    exact Except.noConfusion hns
  · obtain ⟨x, y, _, heq⟩ := newSquare_spec sq k hne
    rw [heq] at hns
    rw [← Except.ok.inj hns]
    exact valsOkG_setCell P sq x y hv h2

lemma getD_eq_getElem {α : Type _} (l : List α) (y : Nat) (d : α) (h : y < l.length) :
    l.getD y d = l[y] := by
  rw [List.getD_eq_getElem?_getD, List.getElem?_eq_getElem h]
  rfl

lemma valsOkG_iff (P : Nat → Prop) (sq : List (List Cell)) :
    ValsOkG P sq ↔ ∀ x y v, cellAt sq x y = some v → P v := by
  constructor
  · intro h x y v hc
    unfold cellAt at hc
    have hy : y < (sq.getD x []).length := lt_length_of_getD_some _ _ _ hc
    have hx : x < sq.length := by
      by_contra hxn
      rw [getD_oob sq x [] (Nat.le_of_not_lt hxn)] at hy
      simp at hy
    exact valsOk_of_getD P _ y v (h _ (getD_mem sq x [] hx)) hc
  · intro h row hrow v hv
    obtain ⟨x, hx, hrweq⟩ := List.mem_iff_getElem.mp hrow
    obtain ⟨y, hy, hceq⟩ := List.mem_iff_getElem.mp hv
    apply h x y v
    unfold cellAt
    rw [getD_eq_getElem sq x [] hx, hrweq, getD_eq_getElem row y none hy, hceq]

/-- Power of two, at least 2. -/
def PowTwo (v : Nat) : Prop := (∃ n, v = 2 ^ n) ∧ 2 ≤ v

lemma powTwo_double (v : Nat) (h : PowTwo v) : PowTwo (v + v) := by
  obtain ⟨⟨n, rfl⟩, h2⟩ := h
  exact ⟨⟨n + 1, by ring⟩, by omega⟩

lemma powTwo_two : PowTwo 2 := ⟨⟨1, rfl⟩, le_refl 2⟩

lemma gridSize_set (sq : List (List Cell)) :
    ∀ (x : Nat) (r : List Cell), x < sq.length →
      gridSize (sq.set x r) + (sq.getD x []).length = gridSize sq + r.length := by
  induction sq with
  | nil => intro x r hx; simp at hx
  | cons a t ih =>
    intro x r hx
    cases x with
    | zero =>
      show gridSize (r :: t) + a.length = gridSize (a :: t) + r.length
      unfold gridSize
      simp [List.map_cons, List.sum_cons]
      omega
    | succ x' =>
      have hx' : x' < t.length := by simpa using hx
      have hihx := ih x' r hx'
      show gridSize (a :: t.set x' r) + ((a :: t).getD (x' + 1) []).length = _
      unfold gridSize at hihx ⊢
      simp only [List.map_cons, List.sum_cons, List.getD_cons_succ] at hihx ⊢
      omega

lemma setCell_gridSize (sq : List (List Cell)) (x y : Nat) (v : Cell)
    (hx : x < sq.length) :
    gridSize (setCell sq x y v) = gridSize sq := by
  have h := gridSize_set sq x ((sq.getD x []).set y v) hx
  rw [List.length_set] at h
  unfold setCell
  omega

lemma newSquare_success_props (sq : List (List Cell)) (k : Nat)
    (hcount : gridCount sq < gridSize sq) :
    ∃ sq', newSquare sq k = .ok sq' ∧ gridCount sq' = gridCount sq + 1 ∧
      gridSize sq' = gridSize sq ∧ sq'.length = sq.length ∧
      (∀ h0, (∀ row ∈ sq, row.length = h0) → ∀ row ∈ sq', row.length = h0) ∧
      (∀ x y, cellAt sq' x y ≠ cellAt sq x y → cellAt sq' x y = some 2) := by
  have hne := emptyPositions_ne_nil sq hcount
  obtain ⟨x, y, hmem, heq⟩ := newSquare_spec sq k hne
  obtain ⟨hx, hy, hempty⟩ := (mem_emptyPositions sq x y).mp hmem
  refine ⟨setCell sq x y (some 2), heq,
    setCell_gridCount sq x y hx hy hempty,
    setCell_gridSize sq x y (some 2) hx,
    setCell_length sq x y (some 2),
    fun h0 hh0 => setCell_shape sq x y (some 2) h0 hx hh0,
    fun a b hne2 => (cellAt_setCell sq x y a b (some 2) hne2).1⟩

lemma applyMove_isSome (g : Grid) (d : Dir) (k : Nat) (lines : List (List Cell))
    (hl : linesOf g d = some lines) : (applyMove g d k).isSome = true := by
  by_cases hfin : (shiftLines lines).2.2 = true
  · rw [applyMove_fin g d k lines hl hfin]
    rfl
  · have hfin' := Bool.eq_false_iff.mpr hfin
    by_cases hmm : (shiftLines lines).2.1 = true
    · cases hns : newSquare (restoreGrid g d (shiftLines lines).1) k with
      | ok sq2 =>
        rw [applyMove_spawn g d k lines sq2 hl hfin' hmm hns]
        rfl
      | error e =>
        rw [applyMove_spawn_err g d k lines e hl hfin' hmm hns]
        rfl
    · rw [applyMove_still g d k lines hl hfin' (Bool.eq_false_iff.mpr hmm)]
      rfl

lemma emptySquares_length (w h : Nat) : (emptySquares w h).length = w := by
  simp [emptySquares]

lemma emptySquares_rows (w h : Nat) : ∀ row ∈ emptySquares w h, row.length = h := by
  intro row hrow
  rw [emptySquares, List.mem_map] at hrow
  obtain ⟨_, _, rfl⟩ := hrow
  simp

lemma emptySquares_count (w h : Nat) : gridCount (emptySquares w h) = 0 := by
  unfold gridCount
  apply List.sum_eq_zero
  intro x hx
  rw [List.mem_map] at hx
  obtain ⟨row, hrow, rfl⟩ := hx
  rw [emptySquares, List.mem_map] at hrow
  obtain ⟨_, _, rfl⟩ := hrow
  rw [lineCount, List.countP_eq_zero]
  intro c hc
  rw [List.mem_map] at hc
  obtain ⟨_, _, rfl⟩ := hc
  simp

lemma emptySquares_size (w h : Nat) : gridSize (emptySquares w h) = w * h := by
  unfold gridSize emptySquares
  rw [List.map_map]
  have hconst : ∀ x ∈ List.range w,
      (List.length ∘ fun _ => (List.range h).map fun _ => (none : Cell)) x
        = (fun _ => h) x := by
    intro x _
    simp
  rw [List.map_congr_left hconst, sum_map_range, Finset.sum_const, Finset.card_range,
    smul_eq_mul]

lemma emptySquares_vals (P : Nat → Prop) (w h : Nat) :
    ValsOkG P (emptySquares w h) := by
  intro row hrow v hv
  rw [emptySquares, List.mem_map] at hrow
  obtain ⟨_, _, rfl⟩ := hrow
  rw [List.mem_map] at hv
  obtain ⟨_, _, habs⟩ := hv
  exact Option.noConfusion habs

lemma initGrid_eq (w h k1 k2 : Nat) (sq1 sq2 : List (List Cell))
    (h1 : newSquare (emptySquares w h) k1 = .ok sq1)
    (h2 : newSquare sq1 k2 = .ok sq2) :
    initGrid w h k1 k2 = .ok ⟨w, h, sq2⟩ := by
  unfold initGrid
  rw [h1]
  show (match newSquare sq1 k2 with
        | .error e => Except.error e
        | .ok s => Except.ok (⟨w, h, s⟩ : Grid)) = Except.ok (⟨w, h, sq2⟩ : Grid)
  rw [h2]

lemma some_pair_inj {A B : Grid × Except GameException Unit} (h : some A = some B) :
    A.1 = B.1 ∧ A.2 = B.2 := by
  have he := Option.some.inj h
  exact ⟨congrArg Prod.fst he, congrArg Prod.snd he⟩

/-- Grid-wide form of the power-of-two invariant: every present value is a
power of two that is at least 2. -/
def PowOk (sq : List (List Cell)) : Prop :=
  ∀ x y v, cellAt sq x y = some v → PowTwo v

/-- C5: for every well-formed grid and every direction, if no line is
changed by the move (the shift loop reports `made_move = false` for every
line), then `_move` returns normally, the grid after the call is exactly
the grid before it, and no new square is spawned. -/
theorem c5_noop_move (g : Grid) (d : Dir) (k : Nat) (lines : List (List Cell))
    (hs : Grid.shape g) (hl : linesOf g d = some lines)
    (hmm : (shiftLines lines).2.1 = false) :
    applyMove g d k = some (g, .ok ()) := by
  obtain ⟨hfst, hfin⟩ := shiftLines_no_move lines hmm
  rw [applyMove_still g d k lines hl hfin hmm, hfst, restore_decompose g d lines hs hl]

/-- C3: for every well-formed grid and every direction whose line
decomposition succeeds, if the move changes at least one line then the
grid written back after the shifts still has an empty square (so the
spawn in `_new_square` succeeds), and the move never raises
`GameOverException`. -/
theorem c3_move_never_game_over (g : Grid) (d : Dir) (k : Nat)
    (lines : List (List Cell)) (hs : Grid.shape g) (hl : linesOf g d = some lines)
    (hmm : (shiftLines lines).2.1 = true) :
    emptyPositions (restoreGrid g d (shiftLines lines).1) ≠ [] ∧
    ∀ r, applyMove g d k = some r → r.2 ≠ Except.error GameException.gameOver := by
  have hdef := restored_deficit g d lines hs hl hmm
  have hne := emptyPositions_ne_nil _ hdef
  refine ⟨hne, fun r hr => ?_⟩
  by_cases hfin : (shiftLines lines).2.2 = true
  · have h2 := (some_pair_inj ((applyMove_fin g d k lines hl hfin).symm.trans hr)).2
    rw [← h2]
    intro habs
    exact GameException.noConfusion (Except.error.inj habs)
  · have hfin' := Bool.eq_false_iff.mpr hfin
    obtain ⟨x, y, _, hnsq⟩ := newSquare_spec _ k hne
    have h2 := (some_pair_inj
      ((applyMove_spawn g d k lines _ hl hfin' hmm hnsq).symm.trans hr)).2
    rw [← h2]
    intro habs
    exact Except.noConfusion habs

/-- C6: every value on a freshly constructed grid is a power of two that
is at least 2, and every move (on a well-formed grid) preserves this
invariant: merges only double existing values and spawns write 2. -/
theorem c6_power_of_two_invariant :
    (∀ w h k1 k2 g, initGrid w h k1 k2 = .ok g → PowOk g.squares) ∧
    (∀ (g : Grid) (d : Dir) (k : Nat) (g' : Grid) (e : Except GameException Unit),
      Grid.shape g → PowOk g.squares → applyMove g d k = some (g', e) →
      PowOk g'.squares) := by
  constructor
  · intro w h k1 k2 g hg
    cases hns1 : newSquare (emptySquares w h) k1 with
    | error e =>
      unfold initGrid at hg
      rw [hns1] at hg
      exact Except.noConfusion hg
    | ok sq1 =>
      cases hns2 : newSquare sq1 k2 with
      | error e =>
        rw [initGrid, hns1] at hg
        have : (match newSquare sq1 k2 with
          | .error e => Except.error e
          | .ok s => Except.ok (⟨w, h, s⟩ : Grid)) = Except.ok g := hg
        rw [hns2] at this
        exact Except.noConfusion this
      | ok sq2 =>
        have hinit := initGrid_eq w h k1 k2 sq1 sq2 hns1 hns2
        rw [hinit] at hg
        have hgeq : (⟨w, h, sq2⟩ : Grid) = g := Except.ok.inj hg
        have hv1 := valsOkG_newSquare PowTwo _ sq1 k1
          (emptySquares_vals PowTwo w h) powTwo_two hns1
        have hv2 := valsOkG_newSquare PowTwo sq1 sq2 k2 hv1 powTwo_two hns2
        rw [← hgeq]
        exact (valsOkG_iff PowTwo sq2).mp hv2
  · intro g d k g' e hs hpow happly
    cases hlo : linesOf g d with
    | none =>
      rw [applyMove_noLines g d k hlo] at happly
      exact Option.noConfusion happly
    | some lines =>
      have hv0 : ValsOkG PowTwo g.squares := (valsOkG_iff _ _).mpr hpow
      have hv1 := valsOkG_linesOf PowTwo g d lines hs hlo hv0
      have hv2 := valsOkG_shiftLines PowTwo powTwo_double lines hv1
      have hv3 := valsOkG_restore PowTwo g d _ hv2
      by_cases hfin : (shiftLines lines).2.2 = true
      · have h1 := (some_pair_inj ((applyMove_fin g d k lines hlo hfin).symm.trans happly)).1
        show PowOk g'.squares
        rw [show g' = { g with squares := restoreGrid g d (shiftLines lines).1 } from h1.symm]
        exact (valsOkG_iff PowTwo _).mp hv3
      · have hfin' := Bool.eq_false_iff.mpr hfin
        by_cases hmm : (shiftLines lines).2.1 = true
        · cases hns : newSquare (restoreGrid g d (shiftLines lines).1) k with
          | ok sq2 =>
            have h1 := (some_pair_inj
              ((applyMove_spawn g d k lines sq2 hlo hfin' hmm hns).symm.trans happly)).1
            rw [show g' = { g with squares := sq2 } from h1.symm]
            have hv4 := valsOkG_newSquare PowTwo _ sq2 k hv3 powTwo_two hns
            exact (valsOkG_iff PowTwo sq2).mp hv4
          | error e2 =>
            have h1 := (some_pair_inj
              ((applyMove_spawn_err g d k lines e2 hlo hfin' hmm hns).symm.trans happly)).1
            rw [show g' = { g with squares := restoreGrid g d (shiftLines lines).1 }
              from h1.symm]
            exact (valsOkG_iff PowTwo _).mp hv3
        · have h1 := (some_pair_inj
            ((applyMove_still g d k lines hlo hfin'
              (Bool.eq_false_iff.mpr hmm)).symm.trans happly)).1
          rw [show g' = { g with squares := restoreGrid g d (shiftLines lines).1 }
            from h1.symm]
          exact (valsOkG_iff PowTwo _).mp hv3

/-- C9: for `width × height ≥ 2`, construction succeeds and produces a grid
with exactly two filled squares, each holding the value 2; and every
successful spawn writes exactly the value 2 into the cell it changes. -/
theorem c9_fresh_grid_two_tiles :
    (∀ w h k1 k2, 2 ≤ w * h → ∃ g, initGrid w h k1 k2 = .ok g ∧
      g.width = w ∧ g.height = h ∧ gridCount g.squares = 2 ∧
      (∀ x y v, cellAt g.squares x y = some v → v = 2)) ∧
    (∀ sq k sq', newSquare sq k = .ok sq' → ∀ x y,
      cellAt sq' x y ≠ cellAt sq x y → cellAt sq' x y = some 2) := by
  constructor
  · intro w h k1 k2 hwh
    have h0 : gridCount (emptySquares w h) < gridSize (emptySquares w h) := by
      rw [emptySquares_count, emptySquares_size]
      omega
    obtain ⟨sq1, hns1, hc1, hsz1, _, _, _⟩ := newSquare_success_props _ k1 h0
    have h1 : gridCount sq1 < gridSize sq1 := by
      rw [hc1, hsz1, emptySquares_count, emptySquares_size]
      omega
    obtain ⟨sq2, hns2, hc2, _, _, _, _⟩ := newSquare_success_props sq1 k2 h1
    refine ⟨⟨w, h, sq2⟩, initGrid_eq w h k1 k2 sq1 sq2 hns1 hns2, rfl, rfl, ?_, ?_⟩
    · show gridCount sq2 = 2
      rw [hc2, hc1, emptySquares_count]
    · have hv1 := valsOkG_newSquare (fun v => v = 2) _ sq1 k1
        (emptySquares_vals _ w h) rfl hns1
      have hv2 := valsOkG_newSquare (fun v => v = 2) sq1 sq2 k2 hv1 rfl hns2
      exact (valsOkG_iff _ sq2).mp hv2
  · intro sq k sq' hns x y hneq
    by_cases hne : emptyPositions sq = []
    · rw [newSquare_gameOver sq k hne] at hns
      exact Except.noConfusion hns
    · obtain ⟨a, b, _, heq⟩ := newSquare_spec sq k hne
      rw [heq] at hns
      rw [← Except.ok.inj hns] at hneq ⊢
      exact (cellAt_setCell sq a b x y (some 2) hneq).1

/-- C10: on a well-formed grid with at least one outer list, the column
decomposition of `_get_columns` (and with it the `top` and `bottom` moves)
raises `IndexError` exactly when the height exceeds the width, and is
well-defined whenever `height ≤ width` (in particular on the default 4×4
grid). -/
theorem c10_column_moves_totality (g : Grid) (k : Nat) (hs : Grid.shape g)
    (h1 : 1 ≤ g.width) :
    (g.width < g.height →
      getColumns g.squares = none ∧ applyMove g Dir.top k = none ∧
        applyMove g Dir.bottom k = none) ∧
    (g.height ≤ g.width →
      (getColumns g.squares).isSome = true ∧ (applyMove g Dir.top k).isSome = true ∧
        (applyMove g Dir.bottom k).isSome = true) := by
  obtain ⟨hw, hh⟩ := hs
  constructor
  · intro hlt
    have hnone := getColumns_fail g.width g.height g.squares hw hh h1 hlt
    refine ⟨hnone, applyMove_noLines g Dir.top k hnone, ?_⟩
    apply applyMove_noLines
    show (getColumns g.squares).map _ = none
    rw [hnone]
    rfl
  · intro hle
    have hsome := getColumns_ok g.width g.height g.squares hw hh hle
    have hbot : linesOf g Dir.bottom
        = some (List.map List.reverse (colsSpec g.width g.height g.squares)) := by
      show (getColumns g.squares).map _ = _
      rw [hsome]
      rfl
    exact ⟨by rw [hsome]; rfl, applyMove_isSome g Dir.top k _ hsome,
      applyMove_isSome g Dir.bottom k _ hbot⟩

/-! ### Concrete grids and lines used by individual claims -/

/-- Row `[2, 2, 2, 2]` of the single-merge test. -/
def line2222 : List Cell := [some 2, some 2, some 2, some 2]

/-- Empty 4-cell row. -/
def row0 : List Cell := [none, none, none, none]

/-- 4×4 grid whose first row is `[1024, 1024, None, None]`. -/
def winGrid : Grid := ⟨4, 4, [[some 1024, some 1024, none, none], row0, row0, row0]⟩

/-- State of `winGrid` after collapsing to the left: the goal tile 2048 in
the corner, no spawned tile. -/
def winGridAfter : Grid := ⟨4, 4, [[some 2048, none, none, none], row0, row0, row0]⟩

/-- C1 counterexample: collapsing `[2,2,2,2]` left does NOT produce
`[4,4,None,None]`. -/
theorem c1_counterexample :
    (shift line2222).squares ≠ [some 4, some 4, none, none] := by decide

/-- C1 amended: collapsing `[2,2,2,2]` left produces `[4,2,None,2]`: only
the first adjacent pair merges (`merged` allows at most one merge per line
per move), and the trailing equal tile is skipped in place by the
`continue`, neither merged nor shifted. -/
theorem c1_single_merge_result :
    (shift line2222).squares = [some 4, some 2, none, some 2] ∧
    (shift line2222).merged = true ∧ (shift line2222).madeMove = true ∧
    (shift line2222).finished = false := by decide

/-- C2 counterexample: in `[2,2,2,2]`, the last cell equals the
last-filled cell's value while a merge has already happened, and the code
does NOT move it into the recorded first empty slot: it stays at index 3
and the line keeps a gap at index 2. -/
theorem c2_counterexample :
    (shift line2222).squares.getD 2 none = none ∧
    (shift line2222).squares.getD 3 none = some 2 ∧
    (shift line2222).squares ≠ [some 4, some 2, some 2, none] := by decide

/-- C2 amended: when the current cell's value equals the last-filled
cell's value but a merge has already happened in this line, the loop body
is a no-op (`continue`): the cell is neither merged nor moved, even when a
first empty slot is recorded, which can leave a gap before it. -/
theorem c2_skip_leaves_cell_in_place (s : SState) (i v j : Nat)
    (hgi : s.squares.getD i none = some v) (hlf : s.lastFilled = some j)
    (hgj : s.squares.getD j none = some v) (hm : s.merged = true) :
    shiftStep s i = s :=
  shiftStep_skip s i v j hgi hlf hgj hm

/-- C2 amended, witness: the concrete skip step of `[2,2,2,2]` (state just
before index 3 is processed). -/
theorem c2_skip_witness :
    shiftStep ⟨[some 4, some 2, none, some 2], some 2, some 1, true, false, true⟩ 3
      = ⟨[some 4, some 2, none, some 2], some 2, some 1, true, false, true⟩ :=
  c2_skip_leaves_cell_in_place
    ⟨[some 4, some 2, none, some 2], some 2, some 1, true, false, true⟩ 3 2 1
    (by decide) (by decide) (by decide) (by decide)

/-- C4 counterexample: a move that reaches the goal does not return an
outcome value — it raises `GameFinishedException`. -/
theorem c4_counterexample :
    applyMove winGrid Dir.left 0
      = some (winGridAfter, Except.error GameException.gameFinished) ∧
    (Except.error GameException.gameFinished : Except GameException Unit)
      ≠ Except.ok () :=
  ⟨rfl, fun h => Except.noConfusion h⟩

/-- C4 amended: `_move` signals outcomes by exception, not by return
value: whenever some line reports a goal merge it raises
`GameFinishedException`, and whenever a spawn is attempted on a full grid
it raises the spawn's `GameOverException`; only the continuing case
returns normally. -/
theorem c4_outcomes_are_exceptions (g : Grid) (d : Dir) (k : Nat)
    (lines : List (List Cell)) (hl : linesOf g d = some lines) :
    ((shiftLines lines).2.2 = true →
      applyMove g d k
        = some ({ g with squares := restoreGrid g d (shiftLines lines).1 },
                Except.error GameException.gameFinished)) ∧
    (∀ e, (shiftLines lines).2.2 = false → (shiftLines lines).2.1 = true →
      newSquare (restoreGrid g d (shiftLines lines).1) k = .error e →
      applyMove g d k
        = some ({ g with squares := restoreGrid g d (shiftLines lines).1 },
                Except.error e)) ∧
    ((shiftLines lines).2.2 = false → (shiftLines lines).2.1 = false →
      applyMove g d k
        = some ({ g with squares := restoreGrid g d (shiftLines lines).1 },
                Except.ok ())) :=
  ⟨fun hfin => applyMove_fin g d k lines hl hfin,
   fun e hfin hmm hns => applyMove_spawn_err g d k lines e hl hfin hmm hns,
   fun hfin hmm => applyMove_still g d k lines hl hfin hmm⟩

/-- Lines of `winGrid` for a `left` move. -/
def winLines : List (List Cell) := [[some 1024, some 1024, none, none], row0, row0, row0]

/-- C4 amended, witness: the winning grid raises on `left`. -/
theorem c4_witness :
    applyMove winGrid Dir.left 5
      = some ({ winGrid with squares := restoreGrid winGrid Dir.left (shiftLines winLines).1 },
              Except.error GameException.gameFinished) :=
  (c4_outcomes_are_exceptions winGrid Dir.left 5 winLines rfl).1 (by decide)

/-- C8: collapsing `[1024,1024,None,None]` left yields
`[2048,None,None,None]` with the goal flag set, and the whole move on a
grid holding that row reports the win (raises `GameFinishedException`)
with no subsequent spawn, whatever the random seed `k`. -/
theorem c8_goal_detection :
    (shift [some 1024, some 1024, none, none]).squares
      = [some 2048, none, none, none] ∧
    (shift [some 1024, some 1024, none, none]).finished = true ∧
    ∀ k, applyMove winGrid Dir.left k
      = some (winGridAfter, Except.error GameException.gameFinished) :=
  ⟨by decide, by decide, fun _ => rfl⟩

/-! ### Exact tile accounting for lines of length at most 4

In general `_shift` can destroy a tile: a tile skipped by the
merged-`continue` stays in place, and on long lines `first_empty_spot` can
catch up with it and a later slide overwrites it (e.g. `[2,2,4,8,16]`).
The indexed invariant `Inv4` shows this needs at least five cells: a skip
happens at index ≥ 2 with `first_empty_spot` strictly below it, and every
slide keeps the distance `first_empty_spot + 2 ≤ step` for recorded
debris, so an overwrite can only happen from step 4 on. On the 4×4 game
grid every line has exactly 4 cells, so there the count drops by exactly
one per merge. -/

def Inv4 (l : List Cell) (s : SState) (i : Nat) : Prop :=
  (lineCount s.squares + (if s.merged = true then 1 else 0) = lineCount l) ∧
  s.squares.length = l.length ∧
  (∀ f, s.firstEmpty = some f → f ≤ i ∧ (f = i → s.squares.getD f none = none)) ∧
  (∀ j, s.lastFilled = some j → j < i) ∧
  (s.merged = true → 2 ≤ i) ∧
  (∀ f p, s.firstEmpty = some f → f ≤ p → p < i → s.squares.getD p none ≠ none →
    2 ≤ p ∧ f + 2 ≤ i)

lemma foldl_range'_inv {n : Nat} {Inv : SState → Nat → Prop}
    (step : ∀ s i, i < n → Inv s i → Inv (shiftStep s i) (i + 1)) :
    ∀ (c m : Nat) (s : SState), m + c ≤ n → Inv s m →
      Inv ((List.range' m c).foldl shiftStep s) (m + c)
  | 0, m, s, _, hs => by simpa using hs
  | c + 1, m, s, hle, hs => by
    have hrec := foldl_range'_inv step c (m + 1) (shiftStep s m)
      (by omega) (step s m (by omega) hs)
    have harith : m + (c + 1) = (m + 1) + c := by omega
    rw [harith, List.range'_succ]
    exact hrec

lemma inv4_init (l : List Cell) : Inv4 l (shiftInit l) 0 := by
  refine ⟨by simp [shiftInit], rfl, ?_, ?_, ?_, ?_⟩
  · intro f hf
    exact Option.noConfusion hf
  · intro j hj
    exact Option.noConfusion hj
  · intro hmg
    exact Bool.noConfusion hmg
  · intro f p hf
    exact Option.noConfusion hf

lemma inv4_slide (l : List Cell) (hlen : l.length ≤ 4) (s : SState) (i v : Nat)
    (hi : i < l.length) (hgi : s.squares.getD i none = some v)
    (h : Inv4 l s i) : Inv4 l (slideOrMark s i v) (i + 1) := by
  obtain ⟨ha, hb, hc, hlf, hm, hD⟩ := h
  cases hfe : s.firstEmpty with
  | none =>
    rw [slideOrMark_none s i v hfe]
    refine ⟨ha, hb, ?_, ?_, fun hmg => Nat.le_succ_of_le (hm hmg), ?_⟩
    · intro f hf
      rw [hfe] at hf
      exact Option.noConfusion hf
    · intro j hj
      have hji : j = i := Option.some.inj hj.symm
      omega
    · intro f p hf
      rw [hfe] at hf
      exact Option.noConfusion hf
  | some f =>
    rw [slideOrMark_some s i v f hfe]
    obtain ⟨hfi, hfempty⟩ := hc f hfe
    have hfne : f ≠ i := by
      intro heq
      have hemp := hfempty heq
      rw [heq] at hemp
      rw [hemp] at hgi
      exact Option.noConfusion hgi
    have hflt : f < i := Nat.lt_of_le_of_ne hfi hfne
    have hfl : f < l.length := Nat.lt_trans hflt hi
    have hfl' : f < s.squares.length := by rw [hb]; exact hfl
    have hil' : i < s.squares.length := by rw [hb]; exact hi
    have hcellf : s.squares.getD f none = none := by
      by_contra hfilled
      obtain ⟨_, hle2⟩ := hD f f hfe (le_refl f) hflt hfilled
      omega
    have hlen1 : (s.squares.set f (some v)).length = s.squares.length := List.length_set ..
    have hi1 : i < (s.squares.set f (some v)).length := by rw [hlen1]; exact hil'
    refine ⟨?_, ?_, ?_, ?_, fun hmg => Nat.le_succ_of_le (hm hmg), ?_⟩
    · show lineCount ((s.squares.set f (some v)).set i none)
        + (if s.merged = true then 1 else 0) = lineCount l
      have h1 := lineCount_set s.squares f (some v) hfl'
      rw [hcellf] at h1
      have h2 := lineCount_set (s.squares.set f (some v)) i none hi1
      have hgi1 : (s.squares.set f (some v)).getD i none = some v := by
        rw [getD_set_ne _ _ _ _ _ hfne, hgi]
      rw [hgi1] at h2
      simp only [Option.isSome_none, Option.isSome_some, Bool.false_eq_true,
        if_true, if_false] at h1 h2
      omega
    · show ((s.squares.set f (some v)).set i none).length = l.length
      rw [List.length_set, hlen1, hb]
    · intro f' hf'
      have hf'eq : f' = f + 1 := Option.some.inj hf'.symm
      constructor
      · omega
      · intro habs
        omega
    · intro j hj
      have hjeq : j = f := Option.some.inj hj.symm
      omega
    · intro f' p hf' hfp hpi hpfilled
      have hf'eq : f' = f + 1 := Option.some.inj hf'.symm
      have hpne_i : p ≠ i := by
        intro heq
        rw [heq] at hpfilled
        rw [getD_set_self _ _ _ _ hi1] at hpfilled
        exact hpfilled rfl
      have hpi' : p < i := by omega
      have hpne_f : p ≠ f := by omega
      have hpre : s.squares.getD p none ≠ none := by
        rw [getD_set_ne _ _ _ _ _ (fun he => hpne_i he.symm),
          getD_set_ne _ _ _ _ _ (fun he => hpne_f he.symm)] at hpfilled
        exact hpfilled
      obtain ⟨h2p, hf2i⟩ := hD f p hfe (by omega) hpi' hpre
      exact ⟨h2p, by omega⟩

lemma inv4_step (l : List Cell) (hlen : l.length ≤ 4) (s : SState) (i : Nat)
    (hi : i < l.length) (h : Inv4 l s i) : Inv4 l (shiftStep s i) (i + 1) := by
  obtain ⟨ha, hb, hc, hlf, hm, hD⟩ := h
  cases hgi : s.squares.getD i none with
  | none =>
    rw [shiftStep_empty s i hgi]
    by_cases hfe : s.firstEmpty.isNone
    · rw [if_pos hfe]
      refine ⟨ha, hb, ?_, fun j hj => Nat.lt_succ_of_lt (hlf j hj),
        fun hmg => Nat.le_succ_of_le (hm hmg), ?_⟩
      · intro f hf
        have hfeq : f = i := Option.some.inj hf.symm
        exact ⟨by omega, fun _ => by rw [hfeq]; exact hgi⟩
      · intro f p hf hfp hpi hpfilled
        have hfeq : f = i := Option.some.inj hf.symm
        have hpeq : p = i := by omega
        rw [hpeq] at hpfilled
        exact absurd hgi hpfilled
    · rw [if_neg hfe]
      refine ⟨ha, hb, ?_, fun j hj => Nat.lt_succ_of_lt (hlf j hj),
        fun hmg => Nat.le_succ_of_le (hm hmg), ?_⟩
      · intro f hf
        obtain ⟨hfi, _⟩ := hc f hf
        exact ⟨by omega, fun habs => by omega⟩
      · intro f p hf hfp hpi hpfilled
        by_cases hpi' : p < i
        · obtain ⟨h2p, hf2⟩ := hD f p hf hfp hpi' hpfilled
          exact ⟨h2p, by omega⟩
        · have hpeq : p = i := by omega
          rw [hpeq] at hpfilled
          exact absurd hgi hpfilled
  | some v =>
    cases hlfv : s.lastFilled with
    | none =>
      rw [shiftStep_noLast s i v hgi hlfv]
      exact inv4_slide l hlen s i v hi hgi ⟨ha, hb, hc, hlf, hm, hD⟩
    | some j =>
      by_cases hgj : s.squares.getD j none = some v
      · by_cases hmg : s.merged = true
        · rw [shiftStep_skip s i v j hgi hlfv hgj hmg]
          refine ⟨ha, hb, ?_, fun j' hj' => Nat.lt_succ_of_lt (hlf j' hj'),
            fun hmg' => Nat.le_succ_of_le (hm hmg'), ?_⟩
          · intro f hf
            obtain ⟨hfi, _⟩ := hc f hf
            exact ⟨by omega, fun habs => by omega⟩
          · intro f p hf hfp hpi hpfilled
            by_cases hpi' : p < i
            · obtain ⟨h2p, hf2⟩ := hD f p hf hfp hpi' hpfilled
              exact ⟨h2p, by omega⟩
            · have hpeq : p = i := by omega
              obtain ⟨hfi, hfemp⟩ := hc f hf
              have hfne : f ≠ i := by
                intro heq
                have hemp := hfemp heq
                rw [heq] at hemp
                rw [hemp] at hgi
                exact Option.noConfusion hgi
              exact ⟨by rw [hpeq]; exact hm hmg, by omega⟩
        · rw [shiftStep_merge s i v j hgi hlfv hgj (Bool.eq_false_iff.mpr hmg)]
          have hji : j < i := hlf j hlfv
          obtain ⟨hlen2, hcnt2, _⟩ := merge_squares_inv s.squares i j v hgi hgj
          have hil' : i < s.squares.length := by rw [hb]; exact hi
          have hlen1 : (s.squares.set j (some (v + v))).length = s.squares.length :=
            List.length_set ..
          have hi1 : i < (s.squares.set j (some (v + v))).length := by
            rw [hlen1]; exact hil'
          refine ⟨?_, ?_, ?_, fun j' hj' => Nat.lt_succ_of_lt (hlf j' hj'),
        fun _ => by omega, ?_⟩
          · show lineCount ((s.squares.set j (some (v + v))).set i none)
              + (if true = true then 1 else 0) = lineCount l
            rw [if_pos rfl]
            rw [if_neg hmg] at ha
            omega
          · show ((s.squares.set j (some (v + v))).set i none).length = l.length
            rw [List.length_set, hlen1, hb]
          · intro f hf
            by_cases hfen : s.firstEmpty.isNone
            · rw [if_pos hfen] at hf
              have hfeq : f = i := Option.some.inj hf.symm
              refine ⟨by omega, fun _ => ?_⟩
              rw [hfeq]
              exact getD_set_self _ _ _ _ hi1
            · rw [if_neg hfen] at hf
              obtain ⟨hfi, _⟩ := hc f hf
              exact ⟨by omega, fun habs => by omega⟩
          · intro f p hf hfp hpi hpfilled
            have hpne_i : p ≠ i := by
              intro heq
              rw [heq, getD_set_self _ _ _ _ hi1] at hpfilled
              exact hpfilled rfl
            have hpi' : p < i := by omega
            by_cases hfen : s.firstEmpty.isNone
            · rw [if_pos hfen] at hf
              have hfeq : f = i := Option.some.inj hf.symm
              omega
            · rw [if_neg hfen] at hf
              have hpre : s.squares.getD p none ≠ none := by
                by_cases hpj : p = j
                · rw [hpj, hgj]
                  intro habs
                  exact Option.noConfusion habs
                · rw [getD_set_ne _ _ _ _ _ (fun he => hpne_i he.symm),
                    getD_set_ne _ _ _ _ _ (fun he => hpj he.symm)] at hpfilled
                  exact hpfilled
              obtain ⟨h2p, hf2⟩ := hD f p hf hfp hpi' hpre
              exact ⟨h2p, by omega⟩
      · rw [shiftStep_noMerge s i v j hgi hlfv hgj]
        exact inv4_slide l hlen s i v hi hgi ⟨ha, hb, hc, hlf, hm, hD⟩

lemma shift_count_exact (l : List Cell) (hlen : l.length ≤ 4) :
    lineCount (shift l).squares + (if (shift l).merged = true then 1 else 0)
      = lineCount l := by
  have hfold := @foldl_range'_inv l.length (Inv4 l)
    (fun s i hi h => inv4_step l hlen s i hi h) l.length 0 (shiftInit l)
    (by omega) (inv4_init l)
  rw [Nat.zero_add] at hfold
  have hr : List.range l.length = List.range' 0 l.length := List.range_eq_range' _
  unfold shift
  rw [hr]
  exact hfold.1

/-- Number of merges a move performs: the number of lines whose shift
merged (each line merges at most once per move). -/
def mergeCount (lines : List (List Cell)) : Nat :=
  lines.countP (fun l => (shift l).merged)

lemma lines_count_exact : ∀ (lines : List (List Cell)),
    (∀ l ∈ lines, l.length ≤ 4) →
    gridCount (shiftLines lines).1 + mergeCount lines = (lines.map lineCount).sum
  | [], _ => rfl
  | a :: t, hlen => by
    have ha := shift_count_exact a (hlen a (List.mem_cons_self a t))
    have ht := lines_count_exact t (fun l hl => hlen l (List.mem_cons_of_mem a hl))
    have hfst : (shiftLines (a :: t)).1 = (shift a).squares :: (shiftLines t).1 := by
      rw [shiftLines_fst, shiftLines_fst, List.map_cons]
    have hmc : mergeCount (a :: t)
        = (if (shift a).merged = true then 1 else 0) + mergeCount t := by
      rw [mergeCount, mergeCount, List.countP_cons]
      omega
    have hgc : gridCount ((shift a).squares :: (shiftLines t).1)
        = lineCount (shift a).squares + gridCount (shiftLines t).1 := by
      rw [gridCount, gridCount, List.map_cons, List.sum_cons]
    rw [hfst, hmc, hgc, List.map_cons, List.sum_cons]
    omega

lemma colsSpec_length (w h : Nat) (sq : List (List Cell)) :
    (colsSpec w h sq).length = w := by
  simp [colsSpec]

lemma colsSpec_getD_oob (w h : Nat) (sq : List (List Cell)) (y : Nat)
    (hyh : ¬ y < h) (hyw : y < w) : (colsSpec w h sq).getD y [] = [] := by
  rw [colsSpec, getD_map_range _ _ _ _ hyw, if_neg hyh]

lemma gridCount_colsSpec_full (w h : Nat) (sq : List (List Cell))
    (hw : sq.length = w) (hh : ∀ row ∈ sq, row.length = h) (hhw : h ≤ w) :
    gridCount (colsSpec w h sq) = gridCount sq := by
  rw [gridCount_eq_sum (colsSpec w h sq), colsSpec_length]
  rw [← gridCount_colsSpec w h sq hw hh hhw]
  refine (Finset.sum_subset (Finset.range_subset.mpr hhw) ?_).symm
  intro y hyw hyh
  rw [colsSpec_getD_oob w h sq y (by simpa using hyh) (Finset.mem_range.mp hyw)]
  rfl

lemma gridCount_linesOf (g : Grid) (d : Dir) (lines : List (List Cell))
    (hs : Grid.shape g) (hl : linesOf g d = some lines) :
    gridCount lines = gridCount g.squares := by
  obtain ⟨hw, hh⟩ := hs
  cases d with
  | left => rw [← Option.some.inj hl]
  | right =>
    rw [← Option.some.inj hl]
    exact gridCount_map_reverse _
  | top =>
    obtain ⟨hlines, hcase⟩ :=
      getColumns_some_char g.width g.height g.squares hw hh lines hl
    rcases hcase with hw0 | hhw
    · have hnil : g.squares = [] := List.length_eq_zero.mp (by rw [hw, hw0])
      rw [hlines, hw0, hnil]
      rfl
    · rw [hlines]
      exact gridCount_colsSpec_full _ _ _ hw hh hhw
  | bottom =>
    obtain ⟨cols, hcols, hmap⟩ := Option.map_eq_some'.mp hl
    obtain ⟨hcolsSpec, hcase⟩ :=
      getColumns_some_char g.width g.height g.squares hw hh cols hcols
    rw [← hmap, gridCount_map_reverse, hcolsSpec]
    rcases hcase with hw0 | hhw
    · have hnil : g.squares = [] := List.length_eq_zero.mp (by rw [hw, hw0])
      rw [hw0, hnil]
      rfl
    · exact gridCount_colsSpec_full _ _ _ hw hh hhw

lemma linesOf_length_le (g : Grid) (d : Dir) (lines : List (List Cell))
    (hs : Grid.shape g) (hl : linesOf g d = some lines)
    (hwb : g.width ≤ 4) (hhb : g.height ≤ 4) :
    ∀ l ∈ lines, l.length ≤ 4 := by
  obtain ⟨hw, hh⟩ := hs
  cases d with
  | left =>
    rw [← Option.some.inj hl]
    intro l hl2
    rw [hh l hl2]
    exact hhb
  | right =>
    rw [← Option.some.inj hl]
    intro l hl2
    rw [List.mem_map] at hl2
    obtain ⟨r, hr, rfl⟩ := hl2
    rw [List.length_reverse, hh r hr]
    exact hhb
  | top =>
    obtain ⟨hlines, _⟩ :=
      getColumns_some_char g.width g.height g.squares hw hh lines hl
    rw [hlines]
    intro l hl2
    rcases mem_colsSpec _ _ _ _ hl2 with rfl | ⟨y, _, _, rfl⟩
    · simp
    · rw [List.length_map, hw]
      exact hwb
  | bottom =>
    obtain ⟨cols, hcols, hmap⟩ := Option.map_eq_some'.mp hl
    obtain ⟨hcolsSpec, _⟩ :=
      getColumns_some_char g.width g.height g.squares hw hh cols hcols
    rw [← hmap, hcolsSpec]
    intro l hl2
    rw [List.mem_map] at hl2
    obtain ⟨c, hc, rfl⟩ := hl2
    rw [List.length_reverse]
    rcases mem_colsSpec _ _ _ _ hc with rfl | ⟨y, _, _, rfl⟩
    · simp
    · rw [List.length_map, hw]
      exact hwb

lemma gridCount_restore_eq (g : Grid) (d : Dir) (lines : List (List Cell))
    (hs : Grid.shape g) (hl : linesOf g d = some lines) :
    gridCount (restoreGrid g d (shiftLines lines).1)
      = gridCount (shiftLines lines).1 := by
  obtain ⟨hw, hh⟩ := hs
  cases d with
  | left => rfl
  | right =>
    exact gridCount_map_reverse _
  | top =>
    obtain ⟨hlines, hcase⟩ :=
      getColumns_some_char g.width g.height g.squares hw hh lines hl
    have hlineslen : lines.length = g.width := by
      rw [hlines, colsSpec_length]
    rcases hcase with hw0 | hhw
    · have hnil : lines = [] := by
        rw [hlines, hw0]
        rfl
      show gridCount (fromColumns g.width g.height (shiftLines lines).1) = _
      rw [hnil, hw0]
      rfl
    · show gridCount (fromColumns g.width g.height (shiftLines lines).1) = _
      have hcollen : ∀ y, y < g.height →
          ((shiftLines lines).1.getD y []).length = g.width := by
        intro y hy
        have hyw : y < g.width := lt_of_lt_of_le hy hhw
        rw [shiftLines_getD lines y (by rw [hlineslen]; exact hyw), shift_length]
        rw [hlines, colsSpec_getD _ _ _ y hy hyw, List.length_map, hw]
      rw [gridCount_fromColumns _ _ _ hcollen]
      rw [gridCount_eq_sum ((shiftLines lines).1), shiftLines_length, hlineslen]
      refine Finset.sum_subset (Finset.range_subset.mpr hhw) ?_
      intro y hyw hyh
      have hyw' : y < g.width := Finset.mem_range.mp hyw
      rw [shiftLines_getD lines y (by rw [hlineslen]; exact hyw')]
      rw [hlines, colsSpec_getD_oob _ _ _ y (by simpa using hyh) hyw']
      rfl
  | bottom =>
    obtain ⟨cols, hcols, hmap⟩ := Option.map_eq_some'.mp hl
    obtain ⟨hcolsSpec, hcase⟩ :=
      getColumns_some_char g.width g.height g.squares hw hh cols hcols
    have hlineseq : lines = (colsSpec g.width g.height g.squares).map List.reverse := by
      rw [← hmap, hcolsSpec]
    have hlineslen : lines.length = g.width := by
      rw [hlineseq, List.length_map, colsSpec_length]
    rcases hcase with hw0 | hhw
    · have hnil : lines = [] := by
        rw [hlineseq, hw0]
        rfl
      show gridCount (fromColumns g.width g.height ((shiftLines lines).1.map List.reverse)) = _
      rw [hnil, hw0]
      rfl
    · show gridCount (fromColumns g.width g.height ((shiftLines lines).1.map List.reverse)) = _
      have hslen : ((shiftLines lines).1.map List.reverse).length = g.width := by
        rw [List.length_map, shiftLines_length, hlineslen]
      have hcollen : ∀ y, y < g.height →
          (((shiftLines lines).1.map List.reverse).getD y []).length = g.width := by
        intro y hy
        have hyw : y < g.width := lt_of_lt_of_le hy hhw
        have hy1 : y < (shiftLines lines).1.length := by
          rw [shiftLines_length, hlineslen]; exact hyw
        rw [getD_map _ _ _ _ [] hy1, List.length_reverse]
        rw [shiftLines_getD lines y (by rw [hlineslen]; exact hyw), shift_length]
        rw [hlineseq, getD_map _ _ _ _ [] (by rw [colsSpec_length]; exact hyw)]
        rw [List.length_reverse, colsSpec_getD _ _ _ y hy hyw, List.length_map, hw]
      rw [gridCount_fromColumns _ _ _ hcollen]
      rw [gridCount_eq_sum ((shiftLines lines).1), shiftLines_length, hlineslen]
      have hterm : ∀ y ∈ Finset.range g.height,
          lineCount (((shiftLines lines).1.map List.reverse).getD y [])
            = lineCount ((shiftLines lines).1.getD y []) := by
        intro y hy
        have hyw : y < g.width := lt_of_lt_of_le (Finset.mem_range.mp hy) hhw
        have hy1 : y < (shiftLines lines).1.length := by
          rw [shiftLines_length, hlineslen]; exact hyw
        rw [getD_map _ _ _ _ [] hy1]
        show lineCount ((shiftLines lines).1.getD y []).reverse = _
        exact List.countP_reverse _ _
      rw [Finset.sum_congr rfl hterm]
      refine Finset.sum_subset (Finset.range_subset.mpr hhw) ?_
      intro y hyw hyh
      have hyw' : y < g.width := Finset.mem_range.mp hyw
      rw [shiftLines_getD lines y (by rw [hlineslen]; exact hyw')]
      rw [hlineseq, getD_map _ _ _ _ [] (by rw [colsSpec_length]; exact hyw')]
      rw [colsSpec_getD_oob _ _ _ y (by simpa using hyh) hyw']
      rfl

/-- C7 amended: on the default 4×4 grid, for every move that changes the
grid and ends neither in a win nor in a loss, the number of filled squares
after the move equals the number before it, minus the number of merges,
plus one for the spawned tile. (Stated additively to avoid truncated
subtraction.) -/
theorem c7_count_after_move (g : Grid) (d : Dir) (k : Nat)
    (lines : List (List Cell)) (g' : Grid) (hs : Grid.shape g)
    (hw4 : g.width = 4) (hh4 : g.height = 4) (hl : linesOf g d = some lines)
    (hmm : (shiftLines lines).2.1 = true) (hfin : (shiftLines lines).2.2 = false)
    (happly : applyMove g d k = some (g', Except.ok ())) :
    gridCount g'.squares + mergeCount lines = gridCount g.squares + 1 := by
  have hdef := restored_deficit g d lines hs hl hmm
  obtain ⟨sq2, hns, hc2, _, _, _, _⟩ := newSquare_success_props _ k hdef
  have happly2 := applyMove_spawn g d k lines sq2 hl hfin hmm hns
  have hpair := some_pair_inj (happly2.symm.trans happly)
  have hg' : ({ g with squares := sq2 } : Grid) = g' := hpair.1
  have hsq : g'.squares = sq2 := by
    rw [← hg']
  have hrest := gridCount_restore_eq g d lines hs hl
  have hlin := gridCount_linesOf g d lines hs hl
  have hexact := lines_count_exact lines
    (linesOf_length_le g d lines hs hl (by omega) (by omega))
  have hsum : (lines.map lineCount).sum = gridCount lines := rfl
  rw [hsq, hc2]
  omega

/-- Row `[2, 2, 4, 4]`: its collapse merges once and then skips both 4s. -/
def cgRow : List Cell := [some 2, some 2, some 4, some 4]

/-- 4×4 grid with two mergeable rows, for the count-decrease counterexample. -/
def countGrid : Grid := ⟨4, 4, [cgRow, cgRow, row0, row0]⟩

/-- Lines of `countGrid` for a `left` move. -/
def cgLines : List (List Cell) := [cgRow, cgRow, row0, row0]

/-- State of `countGrid` after the `left` move with seed 0. -/
def countGridAfter : Grid :=
  ⟨4, 4, [[some 4, some 2, some 4, some 4], [some 4, none, some 4, some 4], row0, row0]⟩

/-- C7 counterexample: a changed, non-terminal `left` move on a 4×4 grid
with two merging rows takes the count of filled squares from 8 down to 7
— the count does decrease across such a move. -/
theorem c7_counterexample :
    applyMove countGrid Dir.left 0 = some (countGridAfter, Except.ok ()) ∧
    gridCount countGridAfter.squares < gridCount countGrid.squares :=
  ⟨rfl, by decide⟩

/-- C7 amended, witness: the formula on the concrete two-merge move
(7 filled squares + 2 merges = 8 filled squares + 1). -/
theorem c7_witness :
    gridCount countGridAfter.squares + mergeCount cgLines
      = gridCount countGrid.squares + 1 :=
  c7_count_after_move countGrid Dir.left 0 cgLines countGridAfter
    ⟨rfl, by decide⟩ rfl rfl rfl rfl rfl rfl

/-- Row `[2, 2, None, None]`, shiftable to the left. -/
def mvRow : List Cell := [some 2, some 2, none, none]

/-- 4×4 grid with one mergeable row. -/
def moveGrid : Grid := ⟨4, 4, [mvRow, row0, row0, row0]⟩

/-- Lines of `moveGrid` for a `left` move. -/
def mvLines : List (List Cell) := [mvRow, row0, row0, row0]

/-- C3 witness: the concrete changed move never raises `GameOverException`. -/
theorem c3_witness :
    emptyPositions (restoreGrid moveGrid Dir.left (shiftLines mvLines).1) ≠ [] ∧
    ∀ r, applyMove moveGrid Dir.left 0 = some r →
      r.2 ≠ Except.error GameException.gameOver :=
  c3_move_never_game_over moveGrid Dir.left 0 mvLines ⟨rfl, by decide⟩ rfl rfl

/-- Fully blocked row for a `left` move: packed to the left, no equal
neighbours. -/
def packedRow : List Cell := [some 2, some 4, some 2, some 4]

/-- 4×4 grid on which `left` is a no-op. -/
def stillGrid : Grid := ⟨4, 4, [packedRow, packedRow, packedRow, packedRow]⟩

/-- Lines of `stillGrid` for a `left` move. -/
def stillLines : List (List Cell) := [packedRow, packedRow, packedRow, packedRow]

/-- C5 witness: the fully blocked move returns the identical grid with no
spawn. -/
theorem c5_witness : applyMove stillGrid Dir.left 0 = some (stillGrid, .ok ()) :=
  c5_noop_move stillGrid Dir.left 0 stillLines ⟨rfl, by decide⟩ rfl rfl

/-- The 2×2 grid produced by `initGrid 2 2 0 0`. -/
def g22 : Grid := ⟨2, 2, [[some 2, some 2], [none, none]]⟩

/-- C6 witness: the freshly constructed 2×2 grid satisfies the
power-of-two invariant. -/
theorem c6_witness : PowOk g22.squares :=
  c6_power_of_two_invariant.1 2 2 0 0 g22 rfl

/-- C9 witness: construction of the 2×2 grid with seeds 0, 0. -/
theorem c9_witness :
    2 ≤ 2 * 2 ∧ ∃ g, initGrid 2 2 0 0 = .ok g ∧
      g.width = 2 ∧ g.height = 2 ∧ gridCount g.squares = 2 ∧
      (∀ x y v, cellAt g.squares x y = some v → v = 2) :=
  ⟨by decide, c9_fresh_grid_two_tiles.1 2 2 0 0 (by decide)⟩

/-- 1×2 grid: taller than wide, so column moves blow up. -/
def tallGrid : Grid := ⟨1, 2, [[none, none]]⟩

/-- C10 witness: on the 1×2 grid the column decomposition and the column
moves fail; on the 4×4 grid `stillGrid` they are defined. -/
theorem c10_witness :
    (getColumns tallGrid.squares = none ∧ applyMove tallGrid Dir.top 0 = none ∧
      applyMove tallGrid Dir.bottom 0 = none) ∧
    ((getColumns stillGrid.squares).isSome = true ∧
      (applyMove stillGrid Dir.top 0).isSome = true ∧
      (applyMove stillGrid Dir.bottom 0).isSome = true) :=
  ⟨(c10_column_moves_totality tallGrid 0 ⟨rfl, by decide⟩ (by decide)).1 (by decide),
   (c10_column_moves_totality stillGrid 0 ⟨rfl, by decide⟩ (by decide)).2 (by decide)⟩
